import Mathlib

/-!
# Free-list set (`src/lam/mem/free_lists.c`)

A shallow embedding of the free-list allocator and the properties its
specification states about it.

Conventions of the embedding.

* Pointers are natural numbers, `0` being the null pointer.
* A computation whose C text would read or write outside an array, use a null
  pool, divide by zero or read an unwritten local has no defined result; such
  calls return `none` (or `Outcome.undefined`).
* The build is the one without `LAM_ENABLE_MEM_PROFILE` (the profiling
  counters are compiled out); `_DEBUGQUEUES` is a field of the environment.
* Where the source declares the integer type (`int`, `long`, `size_t`,
  `ssize_t` in `lam_free_lists_construct_with` and
  `lam_free_lists_mem_pool_construct`) the arithmetic wraps as on an LP64
  machine: `int` is 32 bits, `long`, `ssize_t` and `size_t` are 64 bits, and
  a conversion to a signed type keeps the low bits.
  The fields of the segment list and of the pool are declared in headers that
  are not part of the sources at hand; they hold mathematical integers.  The
  cap test of `lam_free_lists_get_mem_chunk` adds them to the local
  `uint64_t sz_to_add`, so whatever their declared type the sum and the
  comparison are those of unsigned 64-bit values: both sides are taken modulo
  `2 ^ 64`.
-/

namespace FreeLists

/-! ## Data model -/

/-- Modelled from the spec: the status codes of the error taxonomy.  The
constants are declared in a header outside the sources; they are pairwise
distinct. -/
inductive lam_status where
  | LAM_SUCCESS
  | LAM_ERROR
  | LAM_ERR_OUT_OF_RESOURCE
  | LAM_ERR_TEMP_OUT_OF_RESOURCE
  | LAM_ERR_FATAL
  deriving DecidableEq, Repr

open lam_status

/-- Modelled from the spec: the segment list, one per index.  It tracks the
bytes pushed, the minimum and maximum bytes pushed, the consecutive-failure
count and its threshold, and the free elements (their addresses). -/
structure lam_seg_list_t where
  sgl_min_bytes_pushed : Int
  sgl_max_bytes_pushed : Int
  sgl_bytes_pushed : Int
  sgl_max_consec_fail : Int
  sgl_consec_fail : Int
  sgl_list : List Nat
  deriving DecidableEq, Repr

/-- Modelled from the spec: the memory pool.  It supplies chunks of a fixed
size; `mp_supply n i` is the address the pool hands out for its `n`-th request
when that request is made for index `i` (`0` when it has none to give). -/
structure lam_mem_pool_t where
  mp_chunk_sz : Nat
  mp_requests : Nat
  mp_supply : Nat → Int → Nat

/-- The free-list set.  `fl_constructed` records, in order, the class and the
address of every placement construction carried out on the set's chunks. -/
structure lam_free_lists_t where
  fl_pool : Option lam_mem_pool_t
  fl_elt_cls : Nat
  fl_description : String
  fl_free_lists : List lam_seg_list_t
  fl_is_shared : Bool
  fl_nlists : Int
  fl_elt_per_chunk : Int
  fl_elt_size : Nat
  fl_retry_more_resources : Bool
  fl_enforce_affinity : Bool
  fl_affinity : List Nat
  fl_threshold_grow : Int
  fl_constructed : List (Nat × Nat)

/-- The collaborators outside the module and the build-time switch. -/
structure externals where
  lam_set_affinity : Nat → Nat → Nat → Bool
  lam_mp_construct_with : Int → Int → Int → Nat → lam_status × lam_mem_pool_t
  lam_sgl_lock_list : Int → Bool
  alloc_ok : Bool
  DEBUGQUEUES : Bool

/-- How a run ends: with a result, in `lam_abort`, in an access or operation
without defined result, or with the loop budget of the embedding used up. -/
inductive Outcome (α : Type) where
  | ok (a : α)
  | aborted
  | undefined
  | out_of_fuel

/-- The result of a run that ended with one. -/
def Outcome.result {α : Type} : Outcome α → Option α
  | Outcome.ok a => some a
  | Outcome.aborted => none
  | Outcome.undefined => none
  | Outcome.out_of_fuel => none

/-- Whether a run ended in `lam_abort`. -/
def Outcome.is_aborted {α : Type} : Outcome α → Bool
  | Outcome.ok _ => false
  | Outcome.aborted => true
  | Outcome.undefined => false
  | Outcome.out_of_fuel => false

/-! ## Machine integers -/

/-- Conversion to `size_t` (64 bits, unsigned). -/
def to_size_t (x : Int) : Nat := (x % 2 ^ 64).toNat

/-- Conversion to `int` (32 bits, signed). -/
def to_int (x : Int) : Int := (x + 2 ^ 31) % 2 ^ 32 - 2 ^ 31

/-- Conversion to `long` and `ssize_t` (64 bits, signed). -/
def to_long (x : Int) : Int := (x + 2 ^ 63) % 2 ^ 64 - 2 ^ 63

/-- Product of two `size_t` values. -/
def size_mul (a b : Nat) : Nat := (a * b) % 2 ^ 64

/-- Sum of two `size_t` values. -/
def size_add (a b : Nat) : Nat := (a + b) % 2 ^ 64

/-! ## Segment-list and pool accessors -/

/-- Modelled from the spec: `lam_sgl_get_min_bytes_pushed`. -/
def lam_sgl_get_min_bytes_pushed (seg : lam_seg_list_t) : Int := seg.sgl_min_bytes_pushed

/-- Modelled from the spec: `lam_sgl_get_max_bytes_pushed`. -/
def lam_sgl_get_max_bytes_pushed (seg : lam_seg_list_t) : Int := seg.sgl_max_bytes_pushed

/-- Modelled from the spec: `lam_sgl_get_bytes_pushed`. -/
def lam_sgl_get_bytes_pushed (seg : lam_seg_list_t) : Int := seg.sgl_bytes_pushed

/-- Modelled from the spec: `lam_sgl_get_max_consec_fail`. -/
def lam_sgl_get_max_consec_fail (seg : lam_seg_list_t) : Int := seg.sgl_max_consec_fail

/-- Modelled from the spec: `lam_sgl_get_consec_fail`. -/
def lam_sgl_get_consec_fail (seg : lam_seg_list_t) : Int := seg.sgl_consec_fail

/-- Modelled from the spec: `lam_sgl_set_min_bytes_pushed`. -/
def lam_sgl_set_min_bytes_pushed (seg : lam_seg_list_t) (v : Int) : lam_seg_list_t :=
  { seg with sgl_min_bytes_pushed := v }

/-- Modelled from the spec: `lam_sgl_set_max_bytes_pushed`. -/
def lam_sgl_set_max_bytes_pushed (seg : lam_seg_list_t) (v : Int) : lam_seg_list_t :=
  { seg with sgl_max_bytes_pushed := v }

/-- Modelled from the spec: `lam_sgl_set_max_consec_fail`. -/
def lam_sgl_set_max_consec_fail (seg : lam_seg_list_t) (v : Int) : lam_seg_list_t :=
  { seg with sgl_max_consec_fail := v }

/-- Modelled from the spec: `lam_sgl_set_consec_fail`. -/
def lam_sgl_set_consec_fail (seg : lam_seg_list_t) (v : Int) : lam_seg_list_t :=
  { seg with sgl_consec_fail := v }

/-- Modelled from the spec: `lam_sgl_inc_consec_fail`, the counter goes up by one. -/
def lam_sgl_inc_consec_fail (seg : lam_seg_list_t) : lam_seg_list_t :=
  { seg with sgl_consec_fail := seg.sgl_consec_fail + 1 }

/-- The addresses of `n` slots laid out from `loc` with stride `elt_size`. -/
def slot_addrs (elt_size : Nat) : Nat → Nat → List Nat
  | 0, _ => []
  | n + 1, loc => loc :: slot_addrs elt_size n (loc + elt_size)

/-- Modelled from the spec: `lam_sgl_append_elt_chunk`.  The chunk is appended
as `n_elts` free elements and the list records `bytes-pushed += chunk_size`. -/
def lam_sgl_append_elt_chunk (seg : lam_seg_list_t) (chunk : Nat) (chunk_size : Nat)
    (n_elts : Int) (elt_size : Nat) : lam_seg_list_t :=
  { seg with
    sgl_bytes_pushed := seg.sgl_bytes_pushed + chunk_size
    sgl_list := seg.sgl_list ++ slot_addrs elt_size n_elts.toNat chunk }

/-- Modelled from the spec: a freshly constructed segment list is empty, with
nothing pushed and no failure counted. -/
def lam_seg_list_construct : lam_seg_list_t :=
  { sgl_min_bytes_pushed := 0
    sgl_max_bytes_pushed := 0
    sgl_bytes_pushed := 0
    sgl_max_consec_fail := 0
    sgl_consec_fail := 0
    sgl_list := [] }

/-- Modelled from the spec: `lam_mp_get_chunk_size`, `get_chunk_size() -> size_t`. -/
def lam_mp_get_chunk_size (pool : lam_mem_pool_t) : Nat := pool.mp_chunk_sz % 2 ^ 64

/-- Modelled from the spec: `lam_mp_request_chunk`, the chunk (or null) and
the pool after the request. -/
def lam_mp_request_chunk (pool : lam_mem_pool_t) (index : Int) : Nat × lam_mem_pool_t :=
  (pool.mp_supply pool.mp_requests index, { pool with mp_requests := pool.mp_requests + 1 })

/-! ## Array access -/

/-- The entry `fl_free_lists[index]`, when `index` lies inside the array. -/
def seg_at (lists : List lam_seg_list_t) (index : Int) : Option lam_seg_list_t :=
  if index < 0 then none else lists[index.toNat]?

/-- The entry `fl_affinity[index]`, when `index` lies inside the array. -/
def affinity_at (affinity : List Nat) (index : Int) : Option Nat :=
  if index < 0 then none else affinity[index.toNat]?

/-- Write `seg` back to `fl_free_lists[index]`. -/
def set_seg (flist : lam_free_lists_t) (index : Int) (seg : lam_seg_list_t) : lam_free_lists_t :=
  { flist with fl_free_lists := flist.fl_free_lists.set index.toNat seg }

/-! ## `lam_free_lists_construct` -/

/-- The default constructor: every field zero, null or empty. -/
def lam_free_lists_construct : lam_free_lists_t :=
  { fl_pool := none
    fl_elt_cls := 0
    fl_description := ""
    fl_free_lists := []
    fl_is_shared := false
    fl_nlists := 0
    fl_elt_per_chunk := 0
    fl_elt_size := 0
    fl_retry_more_resources := false
    fl_enforce_affinity := false
    fl_affinity := []
    fl_threshold_grow := 0
    fl_constructed := [] }

/-! ## `lam_free_lists_get_mem_chunk` -/

/-- What `lam_free_lists_get_mem_chunk` leaves behind: the set, the chunk it
returns (`0` for none) and the contents of the two out-parameters. -/
structure mem_chunk_result where
  flist : lam_free_lists_t
  chunk : Nat
  len : Option Nat
  err : lam_status

/-- The failure branch shared by the cap check and the null chunk: count the
failure, then classify it against the threshold. -/
def fail_chunk (flist : lam_free_lists_t) (index : Int) (seg : lam_seg_list_t)
    (len : Option Nat) : mem_chunk_result :=
  let seg1 := lam_sgl_inc_consec_fail seg
  if lam_sgl_get_consec_fail seg1 ≥ lam_sgl_get_max_consec_fail seg1 then
    { flist := set_seg flist index seg1, chunk := 0, len := len,
      err := LAM_ERR_OUT_OF_RESOURCE }
  else
    { flist := set_seg flist index seg1, chunk := 0, len := len,
      err := LAM_ERR_TEMP_OUT_OF_RESOURCE }

/-- The function `lam_free_lists_get_mem_chunk`.  `len` and `err` are the
contents of `*len` and `*err` at the call (`none` for an unwritten `*len`).
`sz_to_add` is a `uint64_t`: in the cap test the bytes pushed and the cap are
converted to that type, the sum wraps at `2 ^ 64` and the comparison is the
unsigned one. -/
def lam_free_lists_get_mem_chunk (flist : lam_free_lists_t) (index : Int)
    (len : Option Nat) (err : lam_status) : Option mem_chunk_result :=
  match flist.fl_pool with
  | none => none
  | some pool =>
    let sz_to_add : Nat := lam_mp_get_chunk_size pool
    if index ≥ flist.fl_nlists then
      some { flist := flist, chunk := 0, len := len, err := err }
    else
      match seg_at flist.fl_free_lists index with
      | none => none
      | some seg =>
        if lam_sgl_get_max_bytes_pushed seg ≠ -1 ∧
            to_size_t ((sz_to_add : Int) + lam_sgl_get_bytes_pushed seg)
              > to_size_t (lam_sgl_get_max_bytes_pushed seg) then
          some (fail_chunk flist index seg len)
        else
          let len1 : Option Nat := some sz_to_add
          let req := lam_mp_request_chunk pool index
          let flist1 : lam_free_lists_t := { flist with fl_pool := some req.2 }
          if req.1 = 0 then
            some (fail_chunk flist1 index seg len1)
          else
            some { flist := set_seg flist1 index (lam_sgl_set_consec_fail seg 0),
                   chunk := req.1, len := len1, err := err }

/-! ## `lam_free_lists_append` and `lam_free_lists_create_more_elts` -/

/-- The function `lam_free_lists_append`. -/
def lam_free_lists_append (flist : lam_free_lists_t) (chunk : Nat) (pool_idx : Int) :
    Option lam_free_lists_t :=
  match flist.fl_pool, seg_at flist.fl_free_lists pool_idx with
  | some pool, some seg =>
    some (set_seg flist pool_idx
      (lam_sgl_append_elt_chunk seg chunk (lam_mp_get_chunk_size pool)
        flist.fl_elt_per_chunk flist.fl_elt_size))
  | _, _ => none

/-- The placement-construction loop: `n` constructor calls of class `cls`,
the first at `loc`, each next one `elt_size` further. -/
def construct_elts (cls : Nat) (elt_size : Nat) : Nat → Nat → List (Nat × Nat)
  | 0, _ => []
  | n + 1, loc => (cls, loc) :: construct_elts cls elt_size n (loc + elt_size)

/-- The affinity step of `lam_free_lists_create_more_elts`: `some true` when
the binding failed, `some false` when it held or was not asked for. -/
def bind_affinity (env : externals) (flist : lam_free_lists_t) (ptr : Nat)
    (len_added : Option Nat) (pool_idx : Int) : Option Bool :=
  if flist.fl_enforce_affinity then
    match len_added, affinity_at flist.fl_affinity pool_idx with
    | some len, some a => some (!env.lam_set_affinity ptr len a)
    | _, _ => none
  else some false

/-- The function `lam_free_lists_create_more_elts`: the status it returns and
the set it leaves. -/
def lam_free_lists_create_more_elts (env : externals) (flist : lam_free_lists_t)
    (pool_idx : Int) : Option (lam_status × lam_free_lists_t) :=
  match lam_free_lists_get_mem_chunk flist pool_idx none LAM_SUCCESS with
  | none => none
  | some r =>
    if r.chunk = 0 then some (r.err, r.flist)
    else
      match bind_affinity env r.flist r.chunk r.len pool_idx with
      | none => none
      | some failed =>
        let err : lam_status := if failed then LAM_ERROR else r.err
        if failed ∧ env.DEBUGQUEUES then some (err, r.flist)
        else
          let flist1 : lam_free_lists_t :=
            { r.flist with
              fl_constructed := r.flist.fl_constructed ++
                construct_elts r.flist.fl_elt_cls r.flist.fl_elt_size
                  r.flist.fl_elt_per_chunk.toNat r.chunk }
          match lam_free_lists_append flist1 r.chunk pool_idx with
          | none => none
          | some flist2 => some (err, flist2)

/-! ## `lam_free_lists_mem_pool_construct` -/

/-- The function `lam_free_lists_mem_pool_construct`.  The parameters are
`long` and `ssize_t` values except `nlists` (an `int`) and `page_size` (a
`size_t`); allocating the pool object is part of the collaborator
`lam_mp_construct_with`, which receives the initial size, the maximum size,
the chunk size and the page size. -/
def lam_free_lists_mem_pool_construct (env : externals) (flist : lam_free_lists_t)
    (nlists pages_per_list chunk_size : Int) (page_size : Nat)
    (_min_pages_per_list _default_min_pages_per_list default_pages_per_list
      _max_pages_per_list max_mem_in_pool : Int) :
    Option (lam_status × lam_free_lists_t) :=
  if page_size = 0 then none
  else
    let chunk_size1 : Int :=
      to_long (size_mul (size_add (to_size_t (to_long (chunk_size - 1)) / page_size) 1) page_size)
    let total_pgs_to_alloc : Int :=
      if pages_per_list = -1 then to_long (default_pages_per_list * nlists)
      else to_long (pages_per_list * nlists)
    let mem_in_pool : Int := to_long (size_mul (to_size_t total_pgs_to_alloc) page_size)
    let r := env.lam_mp_construct_with mem_in_pool max_mem_in_pool chunk_size1 page_size
    some (r.1, { flist with fl_pool := some r.2 })

/-! ## `lam_free_lists_construct_with` -/

/-- The pool set-up of `lam_free_lists_construct_with`: share the pool handed
in, or build a private one. -/
def setup_pool (env : externals) (flist : lam_free_lists_t)
    (nlists pages_per_list : Int) (chunk_size page_size : Nat)
    (min_pages_per_list max_pages_per_list : Int) (mem_pool : Option lam_mem_pool_t) :
    Option (lam_status × lam_free_lists_t) :=
  match mem_pool with
  | some pool => some (LAM_SUCCESS, { flist with fl_pool := some pool })
  | none =>
    let max_mem_in_pool : Nat := size_mul (to_size_t max_pages_per_list) page_size
    lam_free_lists_mem_pool_construct env flist nlists pages_per_list (to_long chunk_size)
      page_size min_pages_per_list min_pages_per_list pages_per_list max_pages_per_list
      (to_long max_mem_in_pool)

/-- The sizes `lam_free_lists_construct_with` derives once the pool is in
place. -/
structure list_sizing where
  elt_per_chunk : Nat
  min_pages_per_list : Int
  max_pages_per_list : Int
  initial_mem_per_list : Nat
  max_mem_per_list : Int
  deriving DecidableEq, Repr

/-- The sizing block of `lam_free_lists_construct_with`: `chunk_size` is the
value re-read from the pool, the other arguments are the caller's. -/
def compute_sizing (chunk_size page_size elt_size : Nat)
    (min_pages_per_list max_pages_per_list : Int) : Option list_sizing :=
  if elt_size = 0 then none
  else
    let elt_per_chunk : Nat := chunk_size / elt_size
    let initial0 : Nat := size_mul (to_size_t min_pages_per_list) page_size
    if initial0 < chunk_size ∧ page_size = 0 then none
    else
      let min_pages1 : Int :=
        if initial0 < chunk_size then to_int (size_add ((chunk_size - 1) / page_size) 1)
        else min_pages_per_list
      let initial1 : Nat :=
        if initial0 < chunk_size then size_mul (to_size_t min_pages1) page_size
        else initial0
      let max_pages1 : Int :=
        if max_pages_per_list ≠ -1 ∧ max_pages_per_list < min_pages1 then min_pages1
        else max_pages_per_list
      let max_mem : Int :=
        if max_pages1 = -1 then -1
        else to_long (size_mul (to_size_t max_pages1) page_size)
      some { elt_per_chunk := elt_per_chunk, min_pages_per_list := min_pages1,
             max_pages_per_list := max_pages1, initial_mem_per_list := initial1,
             max_mem_per_list := max_mem }

/-- One list as the constructor loop leaves it: constructed, then given its
minimum, its maximum and its failure threshold. -/
def configured_list (initial_mem_per_list : Nat) (max_mem_per_list : Int)
    (max_consec_req_fail : Int) : lam_seg_list_t :=
  lam_sgl_set_max_consec_fail
    (lam_sgl_set_max_bytes_pushed
      (lam_sgl_set_min_bytes_pushed lam_seg_list_construct initial_mem_per_list)
      max_mem_per_list)
    max_consec_req_fail

/-- The inner loop of the pre-fill: grow list `pool_idx` while its bytes
pushed are below its minimum; a growth that does not return `LAM_SUCCESS`
aborts.  `fuel` bounds the number of growths. -/
def prefill_list (env : externals) (pool_idx : Int) :
    Nat → lam_free_lists_t → Outcome lam_free_lists_t
  | 0, flist =>
    match seg_at flist.fl_free_lists pool_idx with
    | none => Outcome.undefined
    | some seg =>
      if lam_sgl_get_bytes_pushed seg < lam_sgl_get_min_bytes_pushed seg then
        Outcome.out_of_fuel
      else Outcome.ok flist
  | fuel + 1, flist =>
    match seg_at flist.fl_free_lists pool_idx with
    | none => Outcome.undefined
    | some seg =>
      if lam_sgl_get_bytes_pushed seg < lam_sgl_get_min_bytes_pushed seg then
        match lam_free_lists_create_more_elts env flist pool_idx with
        | none => Outcome.undefined
        | some r =>
          if r.1 ≠ LAM_SUCCESS then Outcome.aborted
          else prefill_list env pool_idx fuel r.2
      else Outcome.ok flist

/-- The outer loop of the pre-fill over the lists `pools`: lock, fill, unlock;
a list that cannot be locked aborts. -/
def prefill_all (env : externals) (fuel : Nat) :
    List Int → lam_free_lists_t → Outcome lam_free_lists_t
  | [], flist => Outcome.ok flist
  | pool_idx :: rest, flist =>
    if env.lam_sgl_lock_list pool_idx then
      match prefill_list env pool_idx fuel flist with
      | Outcome.ok flist1 => prefill_all env fuel rest flist1
      | Outcome.aborted => Outcome.aborted
      | Outcome.undefined => Outcome.undefined
      | Outcome.out_of_fuel => Outcome.out_of_fuel
    else Outcome.aborted

/-- The indices `0, 1, ..., nlists - 1` the loops of the constructor visit. -/
def list_indices (nlists : Int) : List Int :=
  (List.range nlists.toNat).map Int.ofNat

/-- The part of `lam_free_lists_construct_with` after the pool set-up:
sizing, the lists, the affinity copy and the pre-fill.  `err` is the status
the function returns at its end. -/
def construct_lists (env : externals) (fuel : Nat) (flist : lam_free_lists_t)
    (pool : lam_mem_pool_t) (err : lam_status) (page_size elt_size : Nat)
    (min_pages_per_list max_pages_per_list max_consec_req_fail : Int)
    (retry_for_more_resources : Bool) (affinity : List Nat) (enforce_affinity : Bool) :
    Outcome (lam_status × lam_free_lists_t) :=
  match compute_sizing (lam_mp_get_chunk_size pool) page_size elt_size
      min_pages_per_list max_pages_per_list with
  | none => Outcome.undefined
  | some sz =>
    if ¬ env.alloc_ok then Outcome.aborted
    else if enforce_affinity ∧ affinity.length < flist.fl_nlists.toNat then Outcome.undefined
    else
      let flist1 : lam_free_lists_t :=
        { flist with
          fl_elt_per_chunk := sz.elt_per_chunk
          fl_free_lists := List.replicate flist.fl_nlists.toNat
            (configured_list sz.initial_mem_per_list sz.max_mem_per_list max_consec_req_fail)
          fl_retry_more_resources := retry_for_more_resources
          fl_enforce_affinity := enforce_affinity
          fl_affinity :=
            if enforce_affinity then affinity.take flist.fl_nlists.toNat
            else flist.fl_affinity }
      match prefill_all env fuel (list_indices flist1.fl_nlists) flist1 with
      | Outcome.ok flist2 => Outcome.ok (err, flist2)
      | Outcome.aborted => Outcome.aborted
      | Outcome.undefined => Outcome.undefined
      | Outcome.out_of_fuel => Outcome.out_of_fuel

/-- The function `lam_free_lists_construct_with`.  `fuel` bounds the number of
growths of each list during the pre-fill. -/
def lam_free_lists_construct_with (env : externals) (fuel : Nat) (flist : lam_free_lists_t)
    (nlists pages_per_list : Int) (chunk_size page_size elt_size : Nat)
    (min_pages_per_list max_pages_per_list max_consec_req_fail : Int)
    (description : String) (retry_for_more_resources : Bool) (affinity : List Nat)
    (enforce_affinity : Bool) (mem_pool : Option lam_mem_pool_t) :
    Outcome (lam_status × lam_free_lists_t) :=
  let flist0 : lam_free_lists_t :=
    { flist with fl_description := description, fl_nlists := nlists }
  match setup_pool env flist0 nlists pages_per_list chunk_size page_size
      min_pages_per_list max_pages_per_list mem_pool with
  | none => Outcome.undefined
  | some r =>
    if r.1 ≠ LAM_SUCCESS then Outcome.ok (r.1, r.2)
    else
      match r.2.fl_pool with
      | none => Outcome.undefined
      | some pool =>
        construct_lists env fuel r.2 pool r.1 page_size elt_size min_pages_per_list
          max_pages_per_list max_consec_req_fail retry_for_more_resources affinity
          enforce_affinity

/-! ## `lam_free_lists_get_elt` and `lam_free_lists_return_elt` -/

/-- What `lam_free_lists_get_elt` leaves behind: the set, the element it
returns (`0` for none) and the contents of `*error`. -/
structure elt_result where
  flist : lam_free_lists_t
  elt : Nat
  error : lam_status

/-- The function `lam_free_lists_get_elt`.  `rob_finished` is the build switch
`ROB_HASNT_FINISHED_THIS_YET`, which the source defines as 0 unless the build
supplies it.  The text under the switch is not a C function body: it declares
a local `int error` next to the parameter `error`, and it applies the
segment-list accessors to the list inside the segment list.  A build with the
switch on therefore has no function to embed and gets no result here. -/
def lam_free_lists_get_elt (rob_finished : Bool) (flist : lam_free_lists_t) (_index : Int)
    (error : lam_status) : Option elt_result :=
  if rob_finished then none
  else some { flist := flist, elt := 0, error := error }

/-- The function `lam_free_lists_return_elt`, with the same build switch: the
status it returns and the set it leaves.  With the switch on it calls
`lam_dbl_append` on a list the sources at hand do not declare; that build gets
no result here. -/
def lam_free_lists_return_elt (rob_finished : Bool) (flist : lam_free_lists_t) (_index : Int)
    (_item : Nat) : Option (lam_status × lam_free_lists_t) :=
  if rob_finished then none
  else some (LAM_ERROR, flist)

/-! ## Derived predicates and harnesses -/

/-- A sequence of `n` calls of `lam_free_lists_create_more_elts` on list
`index`, one after the other. -/
def grow_n (env : externals) (index : Int) : Nat → lam_free_lists_t → Option lam_free_lists_t
  | 0, flist => some flist
  | n + 1, flist =>
    match lam_free_lists_create_more_elts env flist index with
    | none => none
    | some r => grow_n env index n r.2

/-- The cap test of `lam_free_lists_get_mem_chunk`, in unsigned 64-bit
arithmetic as the source carries it out. -/
def cap_exceeded (seg : lam_seg_list_t) (sz_to_add : Nat) : Prop :=
  lam_sgl_get_max_bytes_pushed seg ≠ -1 ∧
    to_size_t ((sz_to_add : Int) + lam_sgl_get_bytes_pushed seg)
      > to_size_t (lam_sgl_get_max_bytes_pushed seg)

instance (seg : lam_seg_list_t) (sz_to_add : Nat) : Decidable (cap_exceeded seg sz_to_add) := by
  unfold cap_exceeded
  exact inferInstance

/-- The configuration a growth leaves alone: the number of lists, the
affinity settings, the element geometry, the length of the list array and the
chunk size of the pool. -/
def same_config (a b : lam_free_lists_t) : Prop :=
  b.fl_nlists = a.fl_nlists ∧
  b.fl_enforce_affinity = a.fl_enforce_affinity ∧
  b.fl_affinity = a.fl_affinity ∧
  b.fl_elt_size = a.fl_elt_size ∧
  b.fl_elt_per_chunk = a.fl_elt_per_chunk ∧
  b.fl_elt_cls = a.fl_elt_cls ∧
  b.fl_free_lists.length = a.fl_free_lists.length ∧
  b.fl_pool.map lam_mp_get_chunk_size = a.fl_pool.map lam_mp_get_chunk_size

/-- Every list of `a` is still there in `b`, with the same bounds and
threshold and with at least as many bytes pushed. -/
def lists_extend (a b : lam_free_lists_t) : Prop :=
  ∀ (j : Int) (seg : lam_seg_list_t), seg_at a.fl_free_lists j = some seg →
    ∃ seg1, seg_at b.fl_free_lists j = some seg1 ∧
      seg1.sgl_min_bytes_pushed = seg.sgl_min_bytes_pushed ∧
      seg1.sgl_max_bytes_pushed = seg.sgl_max_bytes_pushed ∧
      seg1.sgl_max_consec_fail = seg.sgl_max_consec_fail ∧
      seg.sgl_bytes_pushed ≤ seg1.sgl_bytes_pushed

/-! ## The sizes as the specification words them -/

/-- The specification's `ceil(c / page_size)`. -/
def spec_ceil_div (c page_size : Nat) : Nat :=
  if c % page_size = 0 then c / page_size else c / page_size + 1

/-- The specification's minimum page count of a list: the caller's
`min_pages_per_list` if that many pages hold a chunk, `ceil(c / page_size)`
otherwise. -/
def spec_min_pages (c page_size : Nat) (min_pages_per_list : Int) : Int :=
  if min_pages_per_list * page_size ≥ c then min_pages_per_list else spec_ceil_div c page_size

/-- The specification's maximum bytes of a list: unbounded (`-1`) for
`max_pages_per_list = -1`, else the larger of `max_pages_per_list` and the
minimum page count, in bytes. -/
def spec_max_bytes (c page_size : Nat) (min_pages_per_list max_pages_per_list : Int) : Int :=
  if max_pages_per_list = -1 then -1
  else max max_pages_per_list (spec_min_pages c page_size min_pages_per_list) * page_size

/-! ## Concrete inputs -/

/-- A pool of 4096-byte chunks that has a chunk for every request: the `n`-th
one lies at address `4096 * (n + 1)`. -/
def demo_pool : lam_mem_pool_t :=
  { mp_chunk_sz := 4096, mp_requests := 0, mp_supply := fun n _ => 4096 * (n + 1) }

/-- A pool of 4096-byte chunks that has no chunk to give. -/
def dry_pool : lam_mem_pool_t :=
  { mp_chunk_sz := 4096, mp_requests := 0, mp_supply := fun _ _ => 0 }

/-- A segment list with the given cap, bytes pushed, threshold and failure count. -/
def demo_seg (max_bytes bytes max_fail fail : Int) : lam_seg_list_t :=
  { sgl_min_bytes_pushed := 0
    sgl_max_bytes_pushed := max_bytes
    sgl_bytes_pushed := bytes
    sgl_max_consec_fail := max_fail
    sgl_consec_fail := fail
    sgl_list := [] }

/-- A set over `pool` holding the lists `segs`, with elements of 64 bytes, 64
to a chunk. -/
def demo_flist (pool : lam_mem_pool_t) (segs : List lam_seg_list_t) : lam_free_lists_t :=
  { fl_pool := some pool
    fl_elt_cls := 7
    fl_description := "demo"
    fl_free_lists := segs
    fl_is_shared := false
    fl_nlists := segs.length
    fl_elt_per_chunk := 64
    fl_elt_size := 64
    fl_retry_more_resources := false
    fl_enforce_affinity := false
    fl_affinity := []
    fl_threshold_grow := 0
    fl_constructed := [] }

/-- Collaborators that always succeed: the binding holds, the private pool is
built with the chunk size asked for and never runs dry, every lock is taken,
every allocation succeeds; a release build. -/
def demo_env : externals :=
  { lam_set_affinity := fun _ _ _ => true
    lam_mp_construct_with := fun _ _ chunk_size _ =>
      (LAM_SUCCESS,
        { mp_chunk_sz := chunk_size.toNat, mp_requests := 0,
          mp_supply := fun n _ => 4096 * (n + 1) })
    lam_sgl_lock_list := fun _ => true
    alloc_ok := true
    DEBUGQUEUES := false }

/-- A pool of chunks of `2 ^ 62` bytes that has a chunk for every request. -/
def huge_pool : lam_mem_pool_t :=
  { mp_chunk_sz := 2 ^ 62, mp_requests := 0, mp_supply := fun n _ => 4096 * (n + 1) }

/-- Collaborators as in `demo_env`, but the private pool cannot be built. -/
def failing_pool_env : externals :=
  { lam_set_affinity := fun _ _ _ => true
    lam_mp_construct_with := fun _ _ _ _ => (LAM_ERR_OUT_OF_RESOURCE, dry_pool)
    lam_sgl_lock_list := fun _ => true
    alloc_ok := true
    DEBUGQUEUES := false }

/-- A pool of chunks of `2 ^ 63 + 1` bytes that has a chunk for every
request. -/
def wide_pool : lam_mem_pool_t :=
  { mp_chunk_sz := 2 ^ 63 + 1, mp_requests := 0, mp_supply := fun n _ => 4096 * (n + 1) }

/-- A pool of chunks of two 4096-byte pages that has a chunk for every
request. -/
def two_page_pool : lam_mem_pool_t :=
  { mp_chunk_sz := 8192, mp_requests := 0, mp_supply := fun n _ => 8192 * (n + 1) }

/-- Collaborators as in `demo_env`, but no affinity binding holds; a release
build. -/
def unbound_env : externals :=
  { lam_set_affinity := fun _ _ _ => false
    lam_mp_construct_with := fun _ _ chunk_size _ =>
      (LAM_SUCCESS,
        { mp_chunk_sz := chunk_size.toNat, mp_requests := 0,
          mp_supply := fun n _ => 4096 * (n + 1) })
    lam_sgl_lock_list := fun _ => true
    alloc_ok := true
    DEBUGQUEUES := false }

/-- Collaborators as in `unbound_env`, in a build with `_DEBUGQUEUES`. -/
def unbound_debug_env : externals :=
  { lam_set_affinity := fun _ _ _ => false
    lam_mp_construct_with := fun _ _ chunk_size _ =>
      (LAM_SUCCESS,
        { mp_chunk_sz := chunk_size.toNat, mp_requests := 0,
          mp_supply := fun n _ => 4096 * (n + 1) })
    lam_sgl_lock_list := fun _ => true
    alloc_ok := true
    DEBUGQUEUES := true }

/-- The set `demo_flist pool segs` with affinity enforced, every list bound
to descriptor 5. -/
def affine_flist (pool : lam_mem_pool_t) (segs : List lam_seg_list_t) : lam_free_lists_t :=
  { demo_flist pool segs with
    fl_enforce_affinity := true
    fl_affinity := List.replicate segs.length 5 }

/-- A segment list as `demo_seg`, with a minimum as well. -/
def demo_seg_min (min_bytes max_bytes bytes max_fail fail : Int) : lam_seg_list_t :=
  { demo_seg max_bytes bytes max_fail fail with sgl_min_bytes_pushed := min_bytes }

/-! ## Properties -/

/-! ### Array access lemmas -/

theorem seg_at_set_seg_self (flist : lam_free_lists_t) (index : Int)
    (seg seg1 : lam_seg_list_t) (h : seg_at flist.fl_free_lists index = some seg) :
    seg_at (set_seg flist index seg1).fl_free_lists index = some seg1 := by
  unfold seg_at at h ⊢
  by_cases hneg : index < 0
  · simp [hneg] at h
  · simp only [hneg, if_false] at h ⊢
    have hlt : index.toNat < flist.fl_free_lists.length := by
      rcases List.getElem?_eq_some.mp h with ⟨hl, _⟩
      exact hl
    simp [set_seg, List.getElem?_set_self hlt]

theorem seg_at_set_seg_other (flist : lam_free_lists_t) (index j : Int)
    (seg1 : lam_seg_list_t) (h0 : 0 ≤ index) (hne : j ≠ index) :
    seg_at (set_seg flist index seg1).fl_free_lists j = seg_at flist.fl_free_lists j := by
  unfold seg_at
  by_cases hneg : j < 0
  · simp [hneg]
  · simp only [hneg, if_false]
    have hj : index.toNat ≠ j.toNat := by
      intro he
      apply hne
      have h1 : (index.toNat : Int) = index := Int.toNat_of_nonneg h0
      have h2 : (j.toNat : Int) = j := Int.toNat_of_nonneg (by omega)
      omega
    simp [set_seg, List.getElem?_set_ne hj]

theorem seg_at_with_pool (flist : lam_free_lists_t) (p : Option lam_mem_pool_t) (index : Int) :
    seg_at ({ flist with fl_pool := p } : lam_free_lists_t).fl_free_lists index
      = seg_at flist.fl_free_lists index := rfl

/-! ### The failure branch -/

theorem fail_chunk_chunk (flist : lam_free_lists_t) (index : Int) (seg : lam_seg_list_t)
    (len : Option Nat) : (fail_chunk flist index seg len).chunk = 0 := by
  unfold fail_chunk
  dsimp only
  split <;> rfl

theorem fail_chunk_len (flist : lam_free_lists_t) (index : Int) (seg : lam_seg_list_t)
    (len : Option Nat) : (fail_chunk flist index seg len).len = len := by
  unfold fail_chunk
  dsimp only
  split <;> rfl

theorem fail_chunk_flist (flist : lam_free_lists_t) (index : Int) (seg : lam_seg_list_t)
    (len : Option Nat) :
    (fail_chunk flist index seg len).flist = set_seg flist index (lam_sgl_inc_consec_fail seg) := by
  unfold fail_chunk
  dsimp only
  split <;> rfl

theorem fail_chunk_err (flist : lam_free_lists_t) (index : Int) (seg : lam_seg_list_t)
    (len : Option Nat) :
    (fail_chunk flist index seg len).err =
      if seg.sgl_consec_fail + 1 ≥ seg.sgl_max_consec_fail then LAM_ERR_OUT_OF_RESOURCE
      else LAM_ERR_TEMP_OUT_OF_RESOURCE := by
  unfold fail_chunk
  simp only [lam_sgl_get_consec_fail, lam_sgl_get_max_consec_fail, lam_sgl_inc_consec_fail]
  split <;> rfl

/-! ### The cap test where nothing wraps -/

theorem cap_exceeded_of_fits (seg : lam_seg_list_t) (s : Nat)
    (hcap0 : 0 ≤ seg.sgl_max_bytes_pushed) (hb0 : 0 ≤ seg.sgl_bytes_pushed)
    (hfit : seg.sgl_bytes_pushed + (s : Int) < 2 ^ 64)
    (hgt : seg.sgl_bytes_pushed + (s : Int) > seg.sgl_max_bytes_pushed) :
    cap_exceeded seg s := by
  unfold cap_exceeded to_size_t
  simp only [lam_sgl_get_max_bytes_pushed, lam_sgl_get_bytes_pushed]
  constructor <;> omega

theorem not_cap_exceeded_of_fits (seg : lam_seg_list_t) (s : Nat)
    (hb0 : 0 ≤ seg.sgl_bytes_pushed)
    (hle : seg.sgl_bytes_pushed + (s : Int) ≤ seg.sgl_max_bytes_pushed)
    (hfit : seg.sgl_max_bytes_pushed < 2 ^ 64) :
    ¬ cap_exceeded seg s := by
  unfold cap_exceeded to_size_t
  simp only [lam_sgl_get_max_bytes_pushed, lam_sgl_get_bytes_pushed]
  rintro ⟨_, h⟩
  omega

theorem not_cap_exceeded_of_unbounded (seg : lam_seg_list_t) (s : Nat)
    (h : seg.sgl_max_bytes_pushed = -1) : ¬ cap_exceeded seg s := by
  unfold cap_exceeded
  simp only [lam_sgl_get_max_bytes_pushed]
  rintro ⟨h1, _⟩
  exact h1 h

theorem le_cap_of_not_cap_exceeded (seg : lam_seg_list_t) (s : Nat)
    (hcap0 : 0 ≤ seg.sgl_max_bytes_pushed) (hb0 : 0 ≤ seg.sgl_bytes_pushed)
    (hfit : seg.sgl_bytes_pushed + (s : Int) < 2 ^ 64)
    (h : ¬ cap_exceeded seg s) :
    seg.sgl_bytes_pushed + (s : Int) ≤ seg.sgl_max_bytes_pushed := by
  unfold cap_exceeded to_size_t at h
  simp only [lam_sgl_get_max_bytes_pushed, lam_sgl_get_bytes_pushed] at h
  by_contra hgt
  apply h
  constructor <;> omega

/-! ### The three outcomes of `lam_free_lists_get_mem_chunk` on a valid index -/

theorem get_mem_chunk_eq_cap (flist : lam_free_lists_t) (pool : lam_mem_pool_t)
    (index : Int) (seg : lam_seg_list_t) (len : Option Nat) (err : lam_status)
    (hpool : flist.fl_pool = some pool) (hhi : index < flist.fl_nlists)
    (hseg : seg_at flist.fl_free_lists index = some seg)
    (hcap : cap_exceeded seg (lam_mp_get_chunk_size pool)) :
    lam_free_lists_get_mem_chunk flist index len err = some (fail_chunk flist index seg len) := by
  have hge : ¬ index ≥ flist.fl_nlists := by omega
  unfold cap_exceeded at hcap
  simp only [lam_free_lists_get_mem_chunk, hpool, hge, if_false, hseg]
  rw [if_pos hcap]

theorem get_mem_chunk_eq_null (flist : lam_free_lists_t) (pool : lam_mem_pool_t)
    (index : Int) (seg : lam_seg_list_t) (len : Option Nat) (err : lam_status)
    (hpool : flist.fl_pool = some pool) (hhi : index < flist.fl_nlists)
    (hseg : seg_at flist.fl_free_lists index = some seg)
    (hcap : ¬ cap_exceeded seg (lam_mp_get_chunk_size pool))
    (hnull : (lam_mp_request_chunk pool index).1 = 0) :
    lam_free_lists_get_mem_chunk flist index len err =
      some (fail_chunk { flist with fl_pool := some (lam_mp_request_chunk pool index).2 }
        index seg (some (lam_mp_get_chunk_size pool))) := by
  have hge : ¬ index ≥ flist.fl_nlists := by omega
  unfold cap_exceeded at hcap
  simp only [lam_free_lists_get_mem_chunk, hpool, hge, if_false, hseg]
  rw [if_neg hcap, if_pos hnull]

theorem get_mem_chunk_eq_chunk (flist : lam_free_lists_t) (pool : lam_mem_pool_t)
    (index : Int) (seg : lam_seg_list_t) (len : Option Nat) (err : lam_status)
    (hpool : flist.fl_pool = some pool) (hhi : index < flist.fl_nlists)
    (hseg : seg_at flist.fl_free_lists index = some seg)
    (hcap : ¬ cap_exceeded seg (lam_mp_get_chunk_size pool))
    (hchunk : (lam_mp_request_chunk pool index).1 ≠ 0) :
    lam_free_lists_get_mem_chunk flist index len err =
      some { flist := set_seg { flist with fl_pool := some (lam_mp_request_chunk pool index).2 }
                        index (lam_sgl_set_consec_fail seg 0),
             chunk := (lam_mp_request_chunk pool index).1,
             len := some (lam_mp_get_chunk_size pool), err := err } := by
  have hge : ¬ index ≥ flist.fl_nlists := by omega
  unfold cap_exceeded at hcap
  simp only [lam_free_lists_get_mem_chunk, hpool, hge, if_false, hseg]
  rw [if_neg hcap, if_neg hchunk]

theorem get_mem_chunk_eq_bounds (flist : lam_free_lists_t) (pool : lam_mem_pool_t)
    (index : Int) (len : Option Nat) (err : lam_status)
    (hpool : flist.fl_pool = some pool) (hhi : flist.fl_nlists ≤ index) :
    lam_free_lists_get_mem_chunk flist index len err =
      some { flist := flist, chunk := 0, len := len, err := err } := by
  have hge : index ≥ flist.fl_nlists := hhi
  simp only [lam_free_lists_get_mem_chunk, hpool, hge, if_true]

/-! ### C1, C2: the outcomes of `lam_free_lists_get_mem_chunk` on a valid index -/

/-- C1, the claim as stated fails: the sizing block turns a maximum of one page
of `2 ^ 63` bytes into the cap `-2 ^ 63`, which is finite (not `-1`).  On a list
with that cap and nothing pushed, over a pool of 4096-byte chunks that supplies
one, `bytes_pushed + s > m` holds, yet the unsigned test lets the request
through: the call returns the pool's chunk, counts no failure and sets no error. -/
theorem negative_cap_request_succeeds :
    (compute_sizing 4096 (2 ^ 63) 64 1 1).map list_sizing.max_mem_per_list
      = some (-(2 ^ 63)) ∧
    (demo_seg (-(2 ^ 63)) 0 3 0).sgl_max_bytes_pushed ≠ -1 ∧
    (demo_seg (-(2 ^ 63)) 0 3 0).sgl_bytes_pushed + (lam_mp_get_chunk_size demo_pool : Int)
      > (demo_seg (-(2 ^ 63)) 0 3 0).sgl_max_bytes_pushed ∧
    (lam_free_lists_get_mem_chunk (demo_flist demo_pool [demo_seg (-(2 ^ 63)) 0 3 0]) 0 none
        LAM_SUCCESS).map
      (fun r => (r.chunk, r.err,
        (seg_at r.flist.fl_free_lists 0).map lam_seg_list_t.sgl_consec_fail))
      = some (4096, LAM_SUCCESS, some 0) := by
  decide

/-- C1 as amended: for a valid index, a call of `lam_free_lists_get_mem_chunk`
that fails, because the cap is finite and not negative and the sum
`bytes_pushed + s` of a non-negative `bytes_pushed` and the chunk size stays
below `2 ^ 64` and exceeds the cap, or because the pool hands back a null chunk,
returns no chunk, raises the list's `consec_fail` by exactly one, and sets the
error to `LAM_ERR_OUT_OF_RESOURCE` when the raised counter reaches the threshold
and to `LAM_ERR_TEMP_OUT_OF_RESOURCE` otherwise. -/
theorem get_mem_chunk_failure (flist : lam_free_lists_t) (pool : lam_mem_pool_t)
    (index : Int) (seg : lam_seg_list_t) (len : Option Nat) (err : lam_status)
    (hpool : flist.fl_pool = some pool)
    (_hlo : 0 ≤ index) (hhi : index < flist.fl_nlists)
    (hseg : seg_at flist.fl_free_lists index = some seg)
    (hfail : (seg.sgl_max_bytes_pushed ≠ -1 ∧
                0 ≤ seg.sgl_max_bytes_pushed ∧
                0 ≤ seg.sgl_bytes_pushed ∧
                seg.sgl_bytes_pushed + (lam_mp_get_chunk_size pool : Int) < 2 ^ 64 ∧
                seg.sgl_bytes_pushed + (lam_mp_get_chunk_size pool : Int)
                  > seg.sgl_max_bytes_pushed) ∨
             (lam_mp_request_chunk pool index).1 = 0) :
    ∃ r seg1, lam_free_lists_get_mem_chunk flist index len err = some r ∧
      r.chunk = 0 ∧
      seg_at r.flist.fl_free_lists index = some seg1 ∧
      seg1.sgl_consec_fail = seg.sgl_consec_fail + 1 ∧
      seg1.sgl_max_consec_fail = seg.sgl_max_consec_fail ∧
      r.err = (if seg1.sgl_consec_fail ≥ seg1.sgl_max_consec_fail
                then LAM_ERR_OUT_OF_RESOURCE else LAM_ERR_TEMP_OUT_OF_RESOURCE) := by
  by_cases hcap : cap_exceeded seg (lam_mp_get_chunk_size pool)
  · refine ⟨fail_chunk flist index seg len, lam_sgl_inc_consec_fail seg,
      get_mem_chunk_eq_cap flist pool index seg len err hpool hhi hseg hcap,
      fail_chunk_chunk _ _ _ _, ?_, rfl, rfl, ?_⟩
    · rw [fail_chunk_flist]
      exact seg_at_set_seg_self flist index seg _ hseg
    · rw [fail_chunk_err]
      rfl
  · have hnull : (lam_mp_request_chunk pool index).1 = 0 := by
      rcases hfail with h | h
      · exfalso
        exact hcap (cap_exceeded_of_fits seg _ h.2.1 h.2.2.1 h.2.2.2.1 h.2.2.2.2)
      · exact h
    refine ⟨_, lam_sgl_inc_consec_fail seg,
      get_mem_chunk_eq_null flist pool index seg len err hpool hhi hseg hcap hnull,
      fail_chunk_chunk _ _ _ _, ?_, rfl, rfl, ?_⟩
    · rw [fail_chunk_flist]
      exact seg_at_set_seg_self _ index seg _ hseg
    · rw [fail_chunk_err]
      rfl

/-- C2: for a valid index, when the cap is unbounded (`-1`) or would not be
exceeded (the bytes pushed being a byte count, not negative, and the cap a value
of a 64-bit field, below `2 ^ 64`), and the pool supplies a non-null chunk, the
call returns exactly that chunk, sets the length to the pool's chunk size,
resets the list's `consec_fail` to `0` whatever it was, and leaves the error
code as it found it. -/
theorem get_mem_chunk_success (flist : lam_free_lists_t) (pool : lam_mem_pool_t)
    (index : Int) (seg : lam_seg_list_t) (len : Option Nat) (err : lam_status)
    (hpool : flist.fl_pool = some pool)
    (_hlo : 0 ≤ index) (hhi : index < flist.fl_nlists)
    (hseg : seg_at flist.fl_free_lists index = some seg)
    (hcap : seg.sgl_max_bytes_pushed = -1 ∨
              (0 ≤ seg.sgl_bytes_pushed ∧
                seg.sgl_bytes_pushed + (lam_mp_get_chunk_size pool : Int)
                  ≤ seg.sgl_max_bytes_pushed ∧
                seg.sgl_max_bytes_pushed < 2 ^ 64))
    (hchunk : (lam_mp_request_chunk pool index).1 ≠ 0) :
    ∃ r seg1, lam_free_lists_get_mem_chunk flist index len err = some r ∧
      r.chunk = (lam_mp_request_chunk pool index).1 ∧
      r.len = some (lam_mp_get_chunk_size pool) ∧
      seg_at r.flist.fl_free_lists index = some seg1 ∧
      seg1.sgl_consec_fail = 0 ∧
      r.err = err := by
  have hncap : ¬ cap_exceeded seg (lam_mp_get_chunk_size pool) := by
    rcases hcap with h | h
    · exact not_cap_exceeded_of_unbounded seg _ h
    · exact not_cap_exceeded_of_fits seg _ h.1 h.2.1 h.2.2
  refine ⟨_, lam_sgl_set_consec_fail seg 0,
    get_mem_chunk_eq_chunk flist pool index seg len err hpool hhi hseg hncap hchunk,
    rfl, rfl, ?_, rfl, rfl⟩
  exact seg_at_set_seg_self _ index seg _ hseg

/-- C1 as amended, at a concrete input: a list at its cap of one chunk,
threshold 3. -/
theorem get_mem_chunk_failure_witness :
    ∃ r seg1,
      lam_free_lists_get_mem_chunk (demo_flist demo_pool [demo_seg 4096 4096 3 0]) 0 none
        LAM_SUCCESS = some r ∧
      r.chunk = 0 ∧
      seg_at r.flist.fl_free_lists 0 = some seg1 ∧
      seg1.sgl_consec_fail = (demo_seg 4096 4096 3 0).sgl_consec_fail + 1 ∧
      seg1.sgl_max_consec_fail = (demo_seg 4096 4096 3 0).sgl_max_consec_fail ∧
      r.err = (if seg1.sgl_consec_fail ≥ seg1.sgl_max_consec_fail
                then LAM_ERR_OUT_OF_RESOURCE else LAM_ERR_TEMP_OUT_OF_RESOURCE) :=
  get_mem_chunk_failure (demo_flist demo_pool [demo_seg 4096 4096 3 0]) demo_pool 0
    (demo_seg 4096 4096 3 0) none LAM_SUCCESS rfl (by decide) (by decide) rfl
    (Or.inl ⟨by decide, by decide, by decide, by decide, by decide⟩)

/-- C2 at a concrete input: an empty list with an unbounded cap and two
failures counted. -/
theorem get_mem_chunk_success_witness :
    ∃ r seg1,
      lam_free_lists_get_mem_chunk (demo_flist demo_pool [demo_seg (-1) 0 3 2]) 0 none
        LAM_ERROR = some r ∧
      r.chunk = (lam_mp_request_chunk demo_pool 0).1 ∧
      r.len = some (lam_mp_get_chunk_size demo_pool) ∧
      seg_at r.flist.fl_free_lists 0 = some seg1 ∧
      seg1.sgl_consec_fail = 0 ∧
      r.err = LAM_ERROR :=
  get_mem_chunk_success (demo_flist demo_pool [demo_seg (-1) 0 3 2]) demo_pool 0
    (demo_seg (-1) 0 3 2) none LAM_ERROR rfl (by decide) (by decide) rfl
    (Or.inl (by decide)) (by decide)

/-! ### The outcomes of `lam_free_lists_create_more_elts` -/

theorem create_more_elts_eq_bounds (env : externals) (flist : lam_free_lists_t)
    (pool : lam_mem_pool_t) (index : Int)
    (hpool : flist.fl_pool = some pool) (hhi : flist.fl_nlists ≤ index) :
    lam_free_lists_create_more_elts env flist index = some (LAM_SUCCESS, flist) := by
  unfold lam_free_lists_create_more_elts
  rw [get_mem_chunk_eq_bounds flist pool index none LAM_SUCCESS hpool hhi]
  simp

theorem create_more_elts_eq_cap (env : externals) (flist : lam_free_lists_t)
    (pool : lam_mem_pool_t) (index : Int) (seg : lam_seg_list_t)
    (hpool : flist.fl_pool = some pool) (hhi : index < flist.fl_nlists)
    (hseg : seg_at flist.fl_free_lists index = some seg)
    (hcap : cap_exceeded seg (lam_mp_get_chunk_size pool)) :
    lam_free_lists_create_more_elts env flist index =
      some ((if seg.sgl_consec_fail + 1 ≥ seg.sgl_max_consec_fail then LAM_ERR_OUT_OF_RESOURCE
             else LAM_ERR_TEMP_OUT_OF_RESOURCE),
            set_seg flist index (lam_sgl_inc_consec_fail seg)) := by
  unfold lam_free_lists_create_more_elts
  rw [get_mem_chunk_eq_cap flist pool index seg none LAM_SUCCESS hpool hhi hseg hcap]
  simp only [fail_chunk_chunk, if_true, fail_chunk_err, fail_chunk_flist]

theorem create_more_elts_eq_null (env : externals) (flist : lam_free_lists_t)
    (pool : lam_mem_pool_t) (index : Int) (seg : lam_seg_list_t)
    (hpool : flist.fl_pool = some pool) (hhi : index < flist.fl_nlists)
    (hseg : seg_at flist.fl_free_lists index = some seg)
    (hcap : ¬ cap_exceeded seg (lam_mp_get_chunk_size pool))
    (hnull : (lam_mp_request_chunk pool index).1 = 0) :
    lam_free_lists_create_more_elts env flist index =
      some ((if seg.sgl_consec_fail + 1 ≥ seg.sgl_max_consec_fail then LAM_ERR_OUT_OF_RESOURCE
             else LAM_ERR_TEMP_OUT_OF_RESOURCE),
            set_seg { flist with fl_pool := some (lam_mp_request_chunk pool index).2 } index
              (lam_sgl_inc_consec_fail seg)) := by
  unfold lam_free_lists_create_more_elts
  rw [get_mem_chunk_eq_null flist pool index seg none LAM_SUCCESS hpool hhi hseg hcap hnull]
  simp only [fail_chunk_chunk, if_true, fail_chunk_err, fail_chunk_flist]

/-- The set after a growth that went through: the chunk's slots constructed
and the chunk appended to list `index`. -/
theorem create_more_elts_eq_grow (env : externals) (flist : lam_free_lists_t)
    (pool : lam_mem_pool_t) (index : Int) (seg : lam_seg_list_t) (failed : Bool)
    (hpool : flist.fl_pool = some pool) (hhi : index < flist.fl_nlists)
    (hseg : seg_at flist.fl_free_lists index = some seg)
    (hcap : ¬ cap_exceeded seg (lam_mp_get_chunk_size pool))
    (hchunk : (lam_mp_request_chunk pool index).1 ≠ 0)
    (hbind : bind_affinity env flist (lam_mp_request_chunk pool index).1
      (some (lam_mp_get_chunk_size pool)) index = some failed)
    (hrel : ¬ (failed = true ∧ env.DEBUGQUEUES = true)) :
    ∃ flist2, lam_free_lists_create_more_elts env flist index =
        some ((if failed then LAM_ERROR else LAM_SUCCESS), flist2) ∧
      seg_at flist2.fl_free_lists index =
        some (lam_sgl_append_elt_chunk (lam_sgl_set_consec_fail seg 0)
          (lam_mp_request_chunk pool index).1 (lam_mp_get_chunk_size pool)
          flist.fl_elt_per_chunk flist.fl_elt_size) ∧
      (∀ j, j ≠ index → seg_at flist2.fl_free_lists j = seg_at flist.fl_free_lists j) ∧
      flist2.fl_pool = some (lam_mp_request_chunk pool index).2 ∧
      flist2.fl_constructed = flist.fl_constructed ++
        construct_elts flist.fl_elt_cls flist.fl_elt_size flist.fl_elt_per_chunk.toNat
          (lam_mp_request_chunk pool index).1 ∧
      same_config flist flist2 := by
  have h0 : 0 ≤ index := by
    unfold seg_at at hseg
    by_cases hneg : index < 0
    · simp [hneg] at hseg
    · omega
  have hbind1 : bind_affinity env
      (set_seg { flist with fl_pool := some (lam_mp_request_chunk pool index).2 } index
        (lam_sgl_set_consec_fail seg 0))
      (lam_mp_request_chunk pool index).1 (some (lam_mp_get_chunk_size pool)) index
        = some failed := hbind
  have hseg1 : seg_at
      ({ set_seg { flist with fl_pool := some (lam_mp_request_chunk pool index).2 } index
            (lam_sgl_set_consec_fail seg 0) with
          fl_constructed := flist.fl_constructed ++
            construct_elts flist.fl_elt_cls flist.fl_elt_size flist.fl_elt_per_chunk.toNat
              (lam_mp_request_chunk pool index).1 } : lam_free_lists_t).fl_free_lists index
      = some (lam_sgl_set_consec_fail seg 0) :=
    seg_at_set_seg_self { flist with fl_pool := some (lam_mp_request_chunk pool index).2 }
      index seg _ hseg
  refine ⟨set_seg
      { set_seg { flist with fl_pool := some (lam_mp_request_chunk pool index).2 } index
            (lam_sgl_set_consec_fail seg 0) with
          fl_constructed := flist.fl_constructed ++
            construct_elts flist.fl_elt_cls flist.fl_elt_size flist.fl_elt_per_chunk.toNat
              (lam_mp_request_chunk pool index).1 }
      index
      (lam_sgl_append_elt_chunk (lam_sgl_set_consec_fail seg 0)
          (lam_mp_request_chunk pool index).1 (lam_mp_get_chunk_size pool)
          flist.fl_elt_per_chunk flist.fl_elt_size), ?_, ?_, ?_, rfl, rfl, ?_⟩
  · unfold lam_free_lists_create_more_elts
    rw [get_mem_chunk_eq_chunk flist pool index seg none LAM_SUCCESS hpool hhi hseg hcap hchunk]
    simp only [hchunk, if_false, hbind1]
    rw [if_neg hrel]
    unfold lam_free_lists_append
    simp only [hseg1]
    rfl
  · exact seg_at_set_seg_self _ index _ _ hseg1
  · intro j hj
    rw [seg_at_set_seg_other _ index j _ h0 hj]
    exact seg_at_set_seg_other { flist with fl_pool := some (lam_mp_request_chunk pool index).2 }
      index j _ h0 hj
  · refine ⟨rfl, rfl, rfl, rfl, rfl, rfl, ?_, ?_⟩
    · simp [set_seg]
    · simp [set_seg, hpool, lam_mp_request_chunk, lam_mp_get_chunk_size]

theorem create_more_elts_eq_debug (env : externals) (flist : lam_free_lists_t)
    (pool : lam_mem_pool_t) (index : Int) (seg : lam_seg_list_t)
    (hpool : flist.fl_pool = some pool) (hhi : index < flist.fl_nlists)
    (hseg : seg_at flist.fl_free_lists index = some seg)
    (hcap : ¬ cap_exceeded seg (lam_mp_get_chunk_size pool))
    (hchunk : (lam_mp_request_chunk pool index).1 ≠ 0)
    (hbind : bind_affinity env flist (lam_mp_request_chunk pool index).1
      (some (lam_mp_get_chunk_size pool)) index = some true)
    (hdbg : env.DEBUGQUEUES = true) :
    lam_free_lists_create_more_elts env flist index =
      some (LAM_ERROR,
        set_seg { flist with fl_pool := some (lam_mp_request_chunk pool index).2 } index
          (lam_sgl_set_consec_fail seg 0)) := by
  have hbind1 : bind_affinity env
      (set_seg { flist with fl_pool := some (lam_mp_request_chunk pool index).2 } index
        (lam_sgl_set_consec_fail seg 0))
      (lam_mp_request_chunk pool index).1 (some (lam_mp_get_chunk_size pool)) index
        = some true := hbind
  unfold lam_free_lists_create_more_elts
  rw [get_mem_chunk_eq_chunk flist pool index seg none LAM_SUCCESS hpool hhi hseg hcap hchunk]
  simp only [hchunk, if_false, hbind1, hdbg, and_self, if_true]

theorem seg_at_nonneg (lists : List lam_seg_list_t) (index : Int) (seg : lam_seg_list_t)
    (hseg : seg_at lists index = some seg) : 0 ≤ index := by
  unfold seg_at at hseg
  by_cases hneg : index < 0
  · simp [hneg] at hseg
  · omega

theorem same_config_set_seg (flist : lam_free_lists_t) (index : Int) (seg1 : lam_seg_list_t) :
    same_config flist (set_seg flist index seg1) := by
  refine ⟨rfl, rfl, rfl, rfl, rfl, rfl, ?_, rfl⟩
  simp [set_seg]

theorem same_config_request (flist : lam_free_lists_t) (pool : lam_mem_pool_t) (index j : Int)
    (seg1 : lam_seg_list_t) (hpool : flist.fl_pool = some pool) :
    same_config flist
      (set_seg { flist with fl_pool := some (lam_mp_request_chunk pool j).2 } index seg1) := by
  refine ⟨rfl, rfl, rfl, rfl, rfl, rfl, ?_, ?_⟩
  · simp [set_seg]
  · simp [set_seg, hpool, lam_mp_request_chunk, lam_mp_get_chunk_size]

theorem bind_affinity_defined (env : externals) (flist : lam_free_lists_t) (ptr len : Nat)
    (index : Int)
    (haff : flist.fl_enforce_affinity = true → ∃ a, affinity_at flist.fl_affinity index = some a) :
    ∃ failed, bind_affinity env flist ptr (some len) index = some failed := by
  unfold bind_affinity
  by_cases he : flist.fl_enforce_affinity = true
  · rcases haff he with ⟨a, ha⟩
    simp [he, ha]
  · simp [he]

/-- One growth attempt on a valid index: it has a result, it leaves the
configuration and the list's bounds alone, and the bytes pushed either stay or
go up by one chunk that the cap test let through. -/
theorem create_more_elts_step (env : externals) (flist : lam_free_lists_t)
    (pool : lam_mem_pool_t) (index : Int) (seg : lam_seg_list_t)
    (hpool : flist.fl_pool = some pool) (hhi : index < flist.fl_nlists)
    (hseg : seg_at flist.fl_free_lists index = some seg)
    (haff : flist.fl_enforce_affinity = true →
      ∃ a, affinity_at flist.fl_affinity index = some a) :
    ∃ e flist1 seg1, lam_free_lists_create_more_elts env flist index = some (e, flist1) ∧
      same_config flist flist1 ∧
      seg_at flist1.fl_free_lists index = some seg1 ∧
      seg1.sgl_max_bytes_pushed = seg.sgl_max_bytes_pushed ∧
      seg1.sgl_min_bytes_pushed = seg.sgl_min_bytes_pushed ∧
      seg1.sgl_max_consec_fail = seg.sgl_max_consec_fail ∧
      (seg1.sgl_bytes_pushed = seg.sgl_bytes_pushed ∨
        (seg1.sgl_bytes_pushed = seg.sgl_bytes_pushed + (lam_mp_get_chunk_size pool : Int) ∧
          ¬ cap_exceeded seg (lam_mp_get_chunk_size pool) ∧ e ≠ LAM_ERR_OUT_OF_RESOURCE ∧
          e ≠ LAM_ERR_TEMP_OUT_OF_RESOURCE)) := by
  by_cases hcap : cap_exceeded seg (lam_mp_get_chunk_size pool)
  · exact ⟨_, _, lam_sgl_inc_consec_fail seg,
      create_more_elts_eq_cap env flist pool index seg hpool hhi hseg hcap,
      same_config_set_seg _ _ _, seg_at_set_seg_self _ _ _ _ hseg, rfl, rfl, rfl, Or.inl rfl⟩
  · by_cases hnull : (lam_mp_request_chunk pool index).1 = 0
    · exact ⟨_, _, lam_sgl_inc_consec_fail seg,
        create_more_elts_eq_null env flist pool index seg hpool hhi hseg hcap hnull,
        same_config_request _ _ _ _ _ hpool, seg_at_set_seg_self _ _ _ _ hseg,
        rfl, rfl, rfl, Or.inl rfl⟩
    · rcases bind_affinity_defined env flist (lam_mp_request_chunk pool index).1
        (lam_mp_get_chunk_size pool) index haff with ⟨failed, hbind⟩
      by_cases hrel : failed = true ∧ env.DEBUGQUEUES = true
      · rcases hrel with ⟨hf, hd⟩
        subst hf
        exact ⟨_, _, lam_sgl_set_consec_fail seg 0,
          create_more_elts_eq_debug env flist pool index seg hpool hhi hseg hcap hnull hbind hd,
          same_config_request _ _ _ _ _ hpool, seg_at_set_seg_self _ _ _ _ hseg,
          rfl, rfl, rfl, Or.inl rfl⟩
      · rcases create_more_elts_eq_grow env flist pool index seg failed hpool hhi hseg hcap
          hnull hbind hrel with ⟨flist2, heq, hs2, _, _, _, hcfg⟩
        refine ⟨_, flist2, _, heq, hcfg, hs2, rfl, rfl, rfl, Or.inr ⟨rfl, hcap, ?_, ?_⟩⟩
        · cases failed <;> simp
        · cases failed <;> simp

/-- The bytes a failed request accounts for: none. -/
theorem account_of_shortage (e : lam_status) (b b1 s : Int) (dbg : Bool)
    (he : e = LAM_ERR_OUT_OF_RESOURCE ∨ e = LAM_ERR_TEMP_OUT_OF_RESOURCE) (hb : b1 = b) :
    (e = LAM_SUCCESS → b1 = b + s) ∧
    (e = LAM_ERR_OUT_OF_RESOURCE ∨ e = LAM_ERR_TEMP_OUT_OF_RESOURCE → b1 = b) ∧
    (e = LAM_ERROR → b1 = if dbg = true then b else b + s) ∧
    e ≠ LAM_ERR_FATAL := by
  rcases he with h | h <;> subst h <;> simp [hb]

theorem shortage_status (a b : Int) :
    (if a ≥ b then LAM_ERR_OUT_OF_RESOURCE else LAM_ERR_TEMP_OUT_OF_RESOURCE)
        = LAM_ERR_OUT_OF_RESOURCE ∨
    (if a ≥ b then LAM_ERR_OUT_OF_RESOURCE else LAM_ERR_TEMP_OUT_OF_RESOURCE)
        = LAM_ERR_TEMP_OUT_OF_RESOURCE := by
  split
  · exact Or.inl rfl
  · exact Or.inr rfl

/-- One growth attempt on a valid index, with the bytes it accounts for: a
`LAM_SUCCESS` adds one chunk, a shortage adds nothing, a `LAM_ERROR` (the
binding failed) adds nothing in a `_DEBUGQUEUES` build and one chunk
otherwise; a chunk is only ever added when the cap test let it through. -/
theorem create_more_elts_account (env : externals) (flist : lam_free_lists_t)
    (pool : lam_mem_pool_t) (index : Int) (seg : lam_seg_list_t)
    (hpool : flist.fl_pool = some pool) (hhi : index < flist.fl_nlists)
    (hseg : seg_at flist.fl_free_lists index = some seg)
    (haff : flist.fl_enforce_affinity = true →
      ∃ a, affinity_at flist.fl_affinity index = some a) :
    ∃ e flist1 seg1, lam_free_lists_create_more_elts env flist index = some (e, flist1) ∧
      seg_at flist1.fl_free_lists index = some seg1 ∧
      ((e = LAM_SUCCESS →
          seg1.sgl_bytes_pushed = seg.sgl_bytes_pushed + (lam_mp_get_chunk_size pool : Int)) ∧
        (e = LAM_ERR_OUT_OF_RESOURCE ∨ e = LAM_ERR_TEMP_OUT_OF_RESOURCE →
          seg1.sgl_bytes_pushed = seg.sgl_bytes_pushed) ∧
        (e = LAM_ERROR →
          seg1.sgl_bytes_pushed =
            if env.DEBUGQUEUES = true then seg.sgl_bytes_pushed
            else seg.sgl_bytes_pushed + (lam_mp_get_chunk_size pool : Int)) ∧
        e ≠ LAM_ERR_FATAL) ∧
      (seg1.sgl_bytes_pushed = seg.sgl_bytes_pushed ∨
        (seg1.sgl_bytes_pushed = seg.sgl_bytes_pushed + (lam_mp_get_chunk_size pool : Int) ∧
          ¬ cap_exceeded seg (lam_mp_get_chunk_size pool))) := by
  by_cases hcap : cap_exceeded seg (lam_mp_get_chunk_size pool)
  · exact ⟨_, _, lam_sgl_inc_consec_fail seg,
      create_more_elts_eq_cap env flist pool index seg hpool hhi hseg hcap,
      seg_at_set_seg_self _ _ _ _ hseg,
      account_of_shortage _ _ _ _ _ (shortage_status _ _) rfl, Or.inl rfl⟩
  · by_cases hnull : (lam_mp_request_chunk pool index).1 = 0
    · exact ⟨_, _, lam_sgl_inc_consec_fail seg,
        create_more_elts_eq_null env flist pool index seg hpool hhi hseg hcap hnull,
        seg_at_set_seg_self _ _ _ _ hseg,
        account_of_shortage _ _ _ _ _ (shortage_status _ _) rfl, Or.inl rfl⟩
    · rcases bind_affinity_defined env flist (lam_mp_request_chunk pool index).1
        (lam_mp_get_chunk_size pool) index haff with ⟨failed, hbind⟩
      by_cases hrel : failed = true ∧ env.DEBUGQUEUES = true
      · rcases hrel with ⟨hf, hd⟩
        subst hf
        refine ⟨_, _, lam_sgl_set_consec_fail seg 0,
          create_more_elts_eq_debug env flist pool index seg hpool hhi hseg hcap hnull hbind hd,
          seg_at_set_seg_self _ _ _ _ hseg, ?_, Or.inl rfl⟩
        simp [hd, lam_sgl_set_consec_fail]
      · rcases create_more_elts_eq_grow env flist pool index seg failed hpool hhi hseg hcap
          hnull hbind hrel with ⟨flist2, heq, hs2, _, _, _, _⟩
        refine ⟨_, flist2, _, heq, hs2, ?_, Or.inr ⟨rfl, hcap⟩⟩
        cases failed
        · simp [lam_sgl_append_elt_chunk, lam_sgl_set_consec_fail]
        · have hd : ¬ env.DEBUGQUEUES = true := fun hd => hrel ⟨rfl, hd⟩
          simp [hd, lam_sgl_append_elt_chunk, lam_sgl_set_consec_fail]

/-! ### C3: the cap bounds the bytes pushed -/

theorem grow_n_add (env : externals) (index : Int) (j d : Nat) (flist : lam_free_lists_t) :
    grow_n env index (j + d) flist = (grow_n env index j flist).bind (grow_n env index d) := by
  induction j generalizing flist with
  | zero => simp [grow_n]
  | succ j ih =>
    have hjd : j + 1 + d = (j + d) + 1 := by omega
    rw [hjd]
    simp only [grow_n]
    cases h : lam_free_lists_create_more_elts env flist index with
    | none => simp
    | some r => simp [ih]

/-- Any number of growth attempts on a capped list keeps its bytes pushed
between where they started and the cap, and keeps the list ready for the next
attempt. -/
theorem grow_n_capped (env : externals) (index : Int) (M : Int) (s : Nat) (hM : 0 ≤ M)
    (hfit : M + (s : Int) < 2 ^ 64) :
    ∀ (n : Nat) (flist : lam_free_lists_t) (seg : lam_seg_list_t),
      flist.fl_pool.map lam_mp_get_chunk_size = some s →
      index < flist.fl_nlists →
      seg_at flist.fl_free_lists index = some seg →
      (flist.fl_enforce_affinity = true → ∃ a, affinity_at flist.fl_affinity index = some a) →
      seg.sgl_max_bytes_pushed = M →
      0 ≤ seg.sgl_bytes_pushed →
      seg.sgl_bytes_pushed ≤ M →
      ∃ flist1 seg1, grow_n env index n flist = some flist1 ∧
        flist1.fl_pool.map lam_mp_get_chunk_size = some s ∧
        index < flist1.fl_nlists ∧
        seg_at flist1.fl_free_lists index = some seg1 ∧
        (flist1.fl_enforce_affinity = true →
          ∃ a, affinity_at flist1.fl_affinity index = some a) ∧
        seg1.sgl_max_bytes_pushed = M ∧
        seg.sgl_bytes_pushed ≤ seg1.sgl_bytes_pushed ∧
        seg1.sgl_bytes_pushed ≤ M := by
  intro n
  induction n with
  | zero =>
    intro flist seg hp hhi hseg haff hmax _ hb
    exact ⟨flist, seg, rfl, hp, hhi, hseg, haff, hmax, le_refl _, hb⟩
  | succ n ih =>
    intro flist seg hp hhi hseg haff hmax hb0 hb
    cases hpool : flist.fl_pool with
    | none => simp [hpool] at hp
    | some pool =>
      have hs : lam_mp_get_chunk_size pool = s := by simpa [hpool] using hp
      rcases create_more_elts_step env flist pool index seg hpool hhi hseg haff with
        ⟨e, flist1, seg1, heq, hcfg, hseg1, hmax1, _, _, hbytes⟩
      rcases hcfg with ⟨hn, hen, haf, _, _, _, _, hpl⟩
      have hb1 : seg.sgl_bytes_pushed ≤ seg1.sgl_bytes_pushed ∧ seg1.sgl_bytes_pushed ≤ M := by
        rcases hbytes with h | ⟨h, hnc, _, _⟩
        · omega
        · have hle := le_cap_of_not_cap_exceeded seg (lam_mp_get_chunk_size pool)
            (by omega) hb0 (by omega) hnc
          constructor <;> omega
      rcases ih flist1 seg1 (by rw [hpl, hp]) (by rw [hn]; exact hhi) hseg1
          (by rw [hen, haf]; exact haff) (by rw [hmax1, hmax]) (by omega) hb1.2 with
        ⟨flist2, seg2, hg, hp2, hhi2, hseg2, haff2, hmax2, hlo2, hup2⟩
      refine ⟨flist2, seg2, ?_, hp2, hhi2, hseg2, haff2, hmax2, by omega, hup2⟩
      simp only [grow_n, heq]
      exact hg

/-- C3, the claim as stated fails, twice.  A list with the cap
`M = 2 ^ 63 - 1` and `bytes_pushed = M`, over a pool of chunks of `2 ^ 63 + 1`
bytes: the unsigned sum wraps to `0`, the growth goes through with
`LAM_SUCCESS` and leaves `bytes_pushed = 2 ^ 64 > M`.  And in a release build
with affinity enforced and a binding that fails, the call returns `LAM_ERROR`
after it has appended the chunk: `bytes_pushed` goes from `0` to `4096`. -/
theorem cap_overrun_and_failed_call_appends :
    (lam_free_lists_create_more_elts demo_env
        (demo_flist wide_pool [demo_seg (2 ^ 63 - 1) (2 ^ 63 - 1) 3 0]) 0).map
      (fun r => (r.1, (seg_at r.2.fl_free_lists 0).map lam_seg_list_t.sgl_bytes_pushed))
      = some (LAM_SUCCESS, some (2 ^ 64)) ∧
    (lam_free_lists_create_more_elts unbound_env
        (affine_flist demo_pool [demo_seg 8192 0 3 0]) 0).map
      (fun r => (r.1, (seg_at r.2.fl_free_lists 0).map lam_seg_list_t.sgl_bytes_pushed))
      = some (LAM_ERROR, some 4096) := by
  decide

/-- C3 as amended: for a list with a finite cap `M >= 0` that starts with
`0 <= bytes_pushed <= M`, over a pool of chunk size `s` with `M + s < 2 ^ 64`,
after any number `k` of `lam_free_lists_create_more_elts` calls on that list the
bytes pushed are at most `M` and at least what they were after any earlier
number `j <= k` of those calls; the call that follows returns a status and
leaves the bytes pushed at most `M`, having added either nothing or exactly
`s`: it has added `s` when it returns `LAM_SUCCESS`, and nothing when it returns
one of the two out-of-resource errors or, in a `_DEBUGQUEUES` build,
`LAM_ERROR` (the binding failed). -/
theorem bytes_pushed_within_cap (env : externals) (flist : lam_free_lists_t)
    (pool : lam_mem_pool_t) (index : Int) (seg : lam_seg_list_t) (M : Int)
    (hpool : flist.fl_pool = some pool)
    (_hlo : 0 ≤ index) (hhi : index < flist.fl_nlists)
    (hseg : seg_at flist.fl_free_lists index = some seg)
    (haff : flist.fl_enforce_affinity = true →
      ∃ a, affinity_at flist.fl_affinity index = some a)
    (hmax : seg.sgl_max_bytes_pushed = M) (hM : 0 ≤ M)
    (hfit : M + (lam_mp_get_chunk_size pool : Int) < 2 ^ 64)
    (hstart0 : 0 ≤ seg.sgl_bytes_pushed)
    (hstart : seg.sgl_bytes_pushed ≤ M) (j k : Nat) (hjk : j ≤ k) :
    ∃ flistj segj flistk segk e flistk1 segk1,
      grow_n env index j flist = some flistj ∧
      seg_at flistj.fl_free_lists index = some segj ∧
      grow_n env index k flist = some flistk ∧
      seg_at flistk.fl_free_lists index = some segk ∧
      lam_free_lists_create_more_elts env flistk index = some (e, flistk1) ∧
      seg_at flistk1.fl_free_lists index = some segk1 ∧
      seg.sgl_bytes_pushed ≤ segj.sgl_bytes_pushed ∧
      segj.sgl_bytes_pushed ≤ segk.sgl_bytes_pushed ∧
      segk.sgl_bytes_pushed ≤ segk1.sgl_bytes_pushed ∧
      segk1.sgl_bytes_pushed ≤ M ∧
      (segk1.sgl_bytes_pushed = segk.sgl_bytes_pushed ∨
        segk1.sgl_bytes_pushed
          = segk.sgl_bytes_pushed + (lam_mp_get_chunk_size pool : Int)) ∧
      (e = LAM_SUCCESS →
        segk1.sgl_bytes_pushed = segk.sgl_bytes_pushed + (lam_mp_get_chunk_size pool : Int)) ∧
      (e = LAM_ERR_OUT_OF_RESOURCE ∨ e = LAM_ERR_TEMP_OUT_OF_RESOURCE →
        segk1.sgl_bytes_pushed = segk.sgl_bytes_pushed) ∧
      (e = LAM_ERROR → env.DEBUGQUEUES = true →
        segk1.sgl_bytes_pushed = segk.sgl_bytes_pushed) ∧
      e ≠ LAM_ERR_FATAL := by
  have hp : flist.fl_pool.map lam_mp_get_chunk_size = some (lam_mp_get_chunk_size pool) := by
    simp [hpool]
  rcases grow_n_capped env index M (lam_mp_get_chunk_size pool) hM hfit j flist seg hp hhi hseg
      haff hmax hstart0 hstart with
    ⟨flistj, segj, hgj, hpj, hhij, hsegj, haffj, hmaxj, hloj, hupj⟩
  rcases grow_n_capped env index M (lam_mp_get_chunk_size pool) hM hfit (k - j) flistj segj hpj
      hhij hsegj haffj hmaxj (by omega) hupj with
    ⟨flistk, segk, hgk, hpk, hhik, hsegk, haffk, hmaxk, hlok, hupk⟩
  have hgk1 : grow_n env index k flist = some flistk := by
    have hk : k = j + (k - j) := by omega
    rw [hk, grow_n_add, hgj]
    exact hgk
  cases hpoolk : flistk.fl_pool with
  | none => simp [hpoolk] at hpk
  | some poolk =>
    have hsk : lam_mp_get_chunk_size poolk = lam_mp_get_chunk_size pool := by
      simpa [hpoolk] using hpk
    rcases create_more_elts_account env flistk poolk index segk hpoolk hhik hsegk haffk with
      ⟨e, flistk1, segk1, heq, hsegk1, hacc, hstep⟩
    rw [hsk] at hacc hstep
    have hb1 : segk.sgl_bytes_pushed ≤ segk1.sgl_bytes_pushed ∧ segk1.sgl_bytes_pushed ≤ M := by
      rcases hstep with h | ⟨h, hnc⟩
      · omega
      · have hle := le_cap_of_not_cap_exceeded segk (lam_mp_get_chunk_size pool)
          (by omega) (by omega) (by omega) hnc
        constructor <;> omega
    have hdbg : e = LAM_ERROR → env.DEBUGQUEUES = true →
        segk1.sgl_bytes_pushed = segk.sgl_bytes_pushed := by
      intro he hd
      have h := hacc.2.2.1 he
      rw [if_pos hd] at h
      exact h
    exact ⟨flistj, segj, flistk, segk, e, flistk1, segk1, hgj, hsegj, hgk1, hsegk, heq, hsegk1,
      hloj, hlok, hb1.1, hb1.2, hstep.imp id And.left, hacc.1, hacc.2.1, hdbg, hacc.2.2.2⟩

/-- C3 as amended, at a concrete input: a cap of two chunks, after one and
after three growth attempts, and the attempt after those. -/
theorem bytes_pushed_within_cap_witness :
    ∃ flistj segj flistk segk e flistk1 segk1,
      grow_n demo_env 0 1 (demo_flist demo_pool [demo_seg 8192 0 3 0]) = some flistj ∧
      seg_at flistj.fl_free_lists 0 = some segj ∧
      grow_n demo_env 0 3 (demo_flist demo_pool [demo_seg 8192 0 3 0]) = some flistk ∧
      seg_at flistk.fl_free_lists 0 = some segk ∧
      lam_free_lists_create_more_elts demo_env flistk 0 = some (e, flistk1) ∧
      seg_at flistk1.fl_free_lists 0 = some segk1 ∧
      (demo_seg 8192 0 3 0).sgl_bytes_pushed ≤ segj.sgl_bytes_pushed ∧
      segj.sgl_bytes_pushed ≤ segk.sgl_bytes_pushed ∧
      segk.sgl_bytes_pushed ≤ segk1.sgl_bytes_pushed ∧
      segk1.sgl_bytes_pushed ≤ 8192 ∧
      (segk1.sgl_bytes_pushed = segk.sgl_bytes_pushed ∨
        segk1.sgl_bytes_pushed
          = segk.sgl_bytes_pushed + (lam_mp_get_chunk_size demo_pool : Int)) ∧
      (e = LAM_SUCCESS →
        segk1.sgl_bytes_pushed
          = segk.sgl_bytes_pushed + (lam_mp_get_chunk_size demo_pool : Int)) ∧
      (e = LAM_ERR_OUT_OF_RESOURCE ∨ e = LAM_ERR_TEMP_OUT_OF_RESOURCE →
        segk1.sgl_bytes_pushed = segk.sgl_bytes_pushed) ∧
      (e = LAM_ERROR → demo_env.DEBUGQUEUES = true →
        segk1.sgl_bytes_pushed = segk.sgl_bytes_pushed) ∧
      e ≠ LAM_ERR_FATAL :=
  bytes_pushed_within_cap demo_env (demo_flist demo_pool [demo_seg 8192 0 3 0]) demo_pool 0
    (demo_seg 8192 0 3 0) 8192 rfl (by decide) (by decide) rfl
    (fun h => absurd h (by decide)) rfl (by decide) (by decide) (by decide) (by decide) 1 3
    (by decide)

/-! ### C4: a cap of exactly one chunk -/

/-- Once the cap test fails it fails on every later attempt: `n` attempts in a
row leave the list as it was but for `n` more failures counted. -/
theorem grow_n_at_cap (env : externals) (index : Int) (s : Nat) :
    ∀ (n : Nat) (flist : lam_free_lists_t) (seg : lam_seg_list_t),
      flist.fl_pool.map lam_mp_get_chunk_size = some s →
      index < flist.fl_nlists →
      seg_at flist.fl_free_lists index = some seg →
      cap_exceeded seg s →
      ∃ flist1, grow_n env index n flist = some flist1 ∧
        flist1.fl_pool.map lam_mp_get_chunk_size = some s ∧
        index < flist1.fl_nlists ∧
        seg_at flist1.fl_free_lists index =
          some { seg with sgl_consec_fail := seg.sgl_consec_fail + n } := by
  intro n
  induction n with
  | zero =>
    intro flist seg hp hhi hseg _
    refine ⟨flist, rfl, hp, hhi, ?_⟩
    simpa using hseg
  | succ n ih =>
    intro flist seg hp hhi hseg hcap
    cases hpool : flist.fl_pool with
    | none => simp [hpool] at hp
    | some pool =>
      have hs : lam_mp_get_chunk_size pool = s := by simpa [hpool] using hp
      have heq := create_more_elts_eq_cap env flist pool index seg hpool hhi hseg
        (by rw [hs]; exact hcap)
      have hseg1 := seg_at_set_seg_self flist index seg (lam_sgl_inc_consec_fail seg) hseg
      have hcap1 : cap_exceeded (lam_sgl_inc_consec_fail seg) s := hcap
      rcases ih (set_seg flist index (lam_sgl_inc_consec_fail seg)) (lam_sgl_inc_consec_fail seg)
        hp hhi hseg1 hcap1 with ⟨flist1, hg, hp1, hhi1, hs1⟩
      refine ⟨flist1, ?_, hp1, hhi1, ?_⟩
      · simp only [grow_n, heq]
        exact hg
      · rw [hs1]
        simp only [lam_sgl_inc_consec_fail]
        congr 2
        push_cast
        ring

/-- C4, the claim as stated fails: with a cap of exactly one chunk and a
threshold of 1 the first request succeeds and the second one already yields
the permanent `LAM_ERR_OUT_OF_RESOURCE`, not the temporary error. -/
theorem second_request_permanent_at_threshold_one :
    (lam_free_lists_create_more_elts demo_env
        (demo_flist demo_pool [demo_seg 4096 0 1 0]) 0).map Prod.fst = some LAM_SUCCESS ∧
    (lam_free_lists_create_more_elts demo_env
        (demo_flist demo_pool [demo_seg 4096 0 1 0]) 0).bind
      (fun r => (lam_free_lists_create_more_elts demo_env r.2 0).map Prod.fst)
      = some LAM_ERR_OUT_OF_RESOURCE := by
  decide

/-- C4 as amended: for a list whose cap is exactly one chunk of at least one
byte and less than `2 ^ 63` bytes (the cap is set from a `long`), with nothing
pushed yet, a pool that supplies a chunk and a binding that does not fail, and
a threshold of at least 2: the first request succeeds; the
second yields `LAM_ERR_TEMP_OUT_OF_RESOURCE`; after `n` failed requests in a row
the next one yields `LAM_ERR_OUT_OF_RESOURCE` if `n + 1` reaches the threshold
and the temporary error otherwise, so once `max_consec_fail` requests have failed
every further request yields the permanent error. -/
theorem one_chunk_cap_requests (env : externals) (flist : lam_free_lists_t)
    (pool : lam_mem_pool_t) (index : Int) (seg : lam_seg_list_t)
    (hpool : flist.fl_pool = some pool)
    (_hlo : 0 ≤ index) (hhi : index < flist.fl_nlists)
    (hseg : seg_at flist.fl_free_lists index = some seg)
    (hs : 1 ≤ lam_mp_get_chunk_size pool)
    (hfit : (lam_mp_get_chunk_size pool : Int) < 2 ^ 63)
    (hmax : seg.sgl_max_bytes_pushed = (lam_mp_get_chunk_size pool : Int))
    (hbytes : seg.sgl_bytes_pushed = 0)
    (hchunk : (lam_mp_request_chunk pool index).1 ≠ 0)
    (hbind : bind_affinity env flist (lam_mp_request_chunk pool index).1
      (some (lam_mp_get_chunk_size pool)) index = some false)
    (hT : 2 ≤ seg.sgl_max_consec_fail) :
    ∃ flist1, lam_free_lists_create_more_elts env flist index = some (LAM_SUCCESS, flist1) ∧
      (∃ flist2, lam_free_lists_create_more_elts env flist1 index
          = some (LAM_ERR_TEMP_OUT_OF_RESOURCE, flist2)) ∧
      (∀ n : Nat, ∃ flistn segn flist2,
          grow_n env index n flist1 = some flistn ∧
          seg_at flistn.fl_free_lists index = some segn ∧
          segn.sgl_consec_fail = n ∧
          lam_free_lists_create_more_elts env flistn index =
            some ((if (n : Int) + 1 ≥ seg.sgl_max_consec_fail then LAM_ERR_OUT_OF_RESOURCE
                   else LAM_ERR_TEMP_OUT_OF_RESOURCE), flist2)) ∧
      (∀ n : Nat, seg.sgl_max_consec_fail ≤ n → ∃ flistn flist2,
          grow_n env index n flist1 = some flistn ∧
          lam_free_lists_create_more_elts env flistn index
            = some (LAM_ERR_OUT_OF_RESOURCE, flist2)) := by
  have hncap : ¬ cap_exceeded seg (lam_mp_get_chunk_size pool) :=
    not_cap_exceeded_of_fits seg _ (by omega) (by omega) (by omega)
  rcases create_more_elts_eq_grow env flist pool index seg false hpool hhi hseg hncap hchunk
      hbind (by simp) with ⟨flist1, heq, hseg1, _, hpool1, _, hcfg⟩
  have hp1 : flist1.fl_pool.map lam_mp_get_chunk_size = some (lam_mp_get_chunk_size pool) := by
    rw [hcfg.2.2.2.2.2.2.2, hpool]
    rfl
  have hhi1 : index < flist1.fl_nlists := by
    rw [hcfg.1]
    exact hhi
  have hcap1 : cap_exceeded
      (lam_sgl_append_elt_chunk (lam_sgl_set_consec_fail seg 0)
        (lam_mp_request_chunk pool index).1 (lam_mp_get_chunk_size pool)
        flist.fl_elt_per_chunk flist.fl_elt_size) (lam_mp_get_chunk_size pool) := by
    apply cap_exceeded_of_fits <;>
      simp only [lam_sgl_append_elt_chunk, lam_sgl_set_consec_fail] <;> omega
  have hc0 : (lam_sgl_append_elt_chunk (lam_sgl_set_consec_fail seg 0)
        (lam_mp_request_chunk pool index).1 (lam_mp_get_chunk_size pool)
        flist.fl_elt_per_chunk flist.fl_elt_size).sgl_consec_fail = 0 := rfl
  have hT1 : (lam_sgl_append_elt_chunk (lam_sgl_set_consec_fail seg 0)
        (lam_mp_request_chunk pool index).1 (lam_mp_get_chunk_size pool)
        flist.fl_elt_per_chunk flist.fl_elt_size).sgl_max_consec_fail
      = seg.sgl_max_consec_fail := rfl
  generalize lam_sgl_append_elt_chunk (lam_sgl_set_consec_fail seg 0)
        (lam_mp_request_chunk pool index).1 (lam_mp_get_chunk_size pool)
        flist.fl_elt_per_chunk flist.fl_elt_size = seg1 at hseg1 hcap1 hc0 hT1
  have hgen : ∀ n : Nat, ∃ flistn segn flist2,
      grow_n env index n flist1 = some flistn ∧
      seg_at flistn.fl_free_lists index = some segn ∧
      segn.sgl_consec_fail = n ∧
      lam_free_lists_create_more_elts env flistn index =
        some ((if (n : Int) + 1 ≥ seg.sgl_max_consec_fail then LAM_ERR_OUT_OF_RESOURCE
               else LAM_ERR_TEMP_OUT_OF_RESOURCE), flist2) := by
    intro n
    rcases grow_n_at_cap env index (lam_mp_get_chunk_size pool) n flist1 seg1 hp1 hhi1 hseg1
      hcap1 with ⟨flistn, hg, hpn, hhin, hsegn⟩
    cases hpooln : flistn.fl_pool with
    | none => simp [hpooln] at hpn
    | some pooln =>
      have hsn : lam_mp_get_chunk_size pooln = lam_mp_get_chunk_size pool := by
        simpa [hpooln] using hpn
      have hcapn : cap_exceeded { seg1 with sgl_consec_fail := seg1.sgl_consec_fail + n }
          (lam_mp_get_chunk_size pooln) := by
        rw [hsn]
        exact hcap1
      have hc := create_more_elts_eq_cap env flistn pooln index
        { seg1 with sgl_consec_fail := seg1.sgl_consec_fail + n } hpooln hhin hsegn hcapn
      refine ⟨flistn, { seg1 with sgl_consec_fail := seg1.sgl_consec_fail + n },
        set_seg flistn index
          (lam_sgl_inc_consec_fail { seg1 with sgl_consec_fail := seg1.sgl_consec_fail + n }),
        hg, hsegn, ?_, ?_⟩
      · simp [hc0]
      · rw [hc]
        simp [hc0, hT1]
  refine ⟨flist1, heq, ?_, hgen, ?_⟩
  · rcases hgen 0 with ⟨flistn, _, flist2, hg, _, _, hc⟩
    have hfl : flistn = flist1 := by
      simp only [grow_n] at hg
      exact (Option.some.inj hg).symm
    subst hfl
    refine ⟨flist2, ?_⟩
    rw [hc]
    have hlt : ¬ ((0 : Nat) : Int) + 1 ≥ seg.sgl_max_consec_fail := by
      push_cast
      omega
    rw [if_neg hlt]
  · intro n hn
    rcases hgen n with ⟨flistn, _, flist2, hg, _, _, hc⟩
    refine ⟨flistn, flist2, hg, ?_⟩
    rw [hc]
    have hge : (n : Int) + 1 ≥ seg.sgl_max_consec_fail := by omega
    rw [if_pos hge]

/-- C4 as amended, at a concrete input: a cap of one 4096-byte chunk and a
threshold of 3. -/
theorem one_chunk_cap_requests_witness :
    ∃ flist1,
      lam_free_lists_create_more_elts demo_env (demo_flist demo_pool [demo_seg 4096 0 3 0]) 0
        = some (LAM_SUCCESS, flist1) ∧
      (∃ flist2, lam_free_lists_create_more_elts demo_env flist1 0
          = some (LAM_ERR_TEMP_OUT_OF_RESOURCE, flist2)) ∧
      (∀ n : Nat, (3 : Int) ≤ n → ∃ flistn flist2,
          grow_n demo_env 0 n flist1 = some flistn ∧
          lam_free_lists_create_more_elts demo_env flistn 0
            = some (LAM_ERR_OUT_OF_RESOURCE, flist2)) :=
  match one_chunk_cap_requests demo_env (demo_flist demo_pool [demo_seg 4096 0 3 0]) demo_pool 0
      (demo_seg 4096 0 3 0) rfl (by decide) (by decide) rfl (by decide) (by decide)
      (by decide) rfl (by decide) rfl (by decide) with
  | ⟨flist1, h1, h2, _, h4⟩ => ⟨flist1, h1, h2, h4⟩

/-! ### C5, C10: an index outside the array -/

/-- C5, the code at the failing inputs: with one list, `index = 1` passes
through the bounds test, which returns no chunk and leaves the error at the
`LAM_SUCCESS` the caller put there; `index = -1` is not caught by the bounds
test, and the call goes on to read `fl_free_lists[-1]`. -/
theorem get_mem_chunk_out_of_range :
    (lam_free_lists_get_mem_chunk (demo_flist demo_pool [demo_seg (-1) 0 3 0]) 1 none
        LAM_SUCCESS).map (fun r => (r.chunk, r.err)) = some (0, LAM_SUCCESS) ∧
    (lam_free_lists_get_mem_chunk (demo_flist demo_pool [demo_seg (-1) 0 3 0]) (-1) none
        LAM_SUCCESS).isNone = true := by
  decide

/-- C10, the code at the failing input: with one list and `index = 1`,
`lam_free_lists_get_mem_chunk` returns no chunk and
`lam_free_lists_create_more_elts` returns `LAM_SUCCESS`. -/
theorem create_more_elts_out_of_range :
    (lam_free_lists_get_mem_chunk (demo_flist demo_pool [demo_seg (-1) 0 3 0]) 1 none
        LAM_SUCCESS).map (fun r => r.chunk) = some 0 ∧
    (lam_free_lists_create_more_elts demo_env
        (demo_flist demo_pool [demo_seg (-1) 0 3 0]) 1).map Prod.fst = some LAM_SUCCESS := by
  decide

/-! ### C7: the slots of a chunk -/

/-- C7, the code at the failing input: after `lam_free_lists_construct` and
`lam_free_lists_construct_with` with element size 64 over a pool of 4096-byte
chunks, the set's `fl_elt_size` is still 0, and the growth of the pre-fill
carried out its 64 constructions all at the chunk's first byte (address 4096),
not at the offsets 0, 64, 128, ... -/
theorem construct_with_leaves_stride_zero :
    ((lam_free_lists_construct_with demo_env 4 lam_free_lists_construct 1 1 4096 4096 64 1 (-1)
        3 "demo" false [] false (some demo_pool)).result.map
      (fun r => (r.1, r.2.fl_elt_per_chunk, r.2.fl_elt_size, r.2.fl_constructed)))
      = some (LAM_SUCCESS, 64, 0, List.replicate 64 (0, 4096)) := by
  decide

/-! ### What every growth preserves -/

theorem same_config_refl (a : lam_free_lists_t) : same_config a a :=
  ⟨rfl, rfl, rfl, rfl, rfl, rfl, rfl, rfl⟩

theorem same_config_trans (a b c : lam_free_lists_t) (h1 : same_config a b)
    (h2 : same_config b c) : same_config a c := by
  rcases h1 with ⟨a1, a2, a3, a4, a5, a6, a7, a8⟩
  rcases h2 with ⟨b1, b2, b3, b4, b5, b6, b7, b8⟩
  exact ⟨b1.trans a1, b2.trans a2, b3.trans a3, b4.trans a4, b5.trans a5, b6.trans a6,
    b7.trans a7, b8.trans a8⟩

theorem lists_extend_refl (a : lam_free_lists_t) : lists_extend a a :=
  fun _ seg h => ⟨seg, h, rfl, rfl, rfl, le_refl _⟩

theorem lists_extend_trans (a b c : lam_free_lists_t) (h1 : lists_extend a b)
    (h2 : lists_extend b c) : lists_extend a c := by
  intro j seg h
  rcases h1 j seg h with ⟨seg1, hs1, m1, x1, f1, b1⟩
  rcases h2 j seg1 hs1 with ⟨seg2, hs2, m2, x2, f2, b2⟩
  exact ⟨seg2, hs2, m2.trans m1, x2.trans x1, f2.trans f1, le_trans b1 b2⟩

theorem lists_extend_set_seg (flist flist1 : lam_free_lists_t) (index : Int)
    (seg seg1 : lam_seg_list_t)
    (hlists : flist1.fl_free_lists = flist.fl_free_lists)
    (hseg : seg_at flist.fl_free_lists index = some seg)
    (hmin : seg1.sgl_min_bytes_pushed = seg.sgl_min_bytes_pushed)
    (hmax : seg1.sgl_max_bytes_pushed = seg.sgl_max_bytes_pushed)
    (hfail : seg1.sgl_max_consec_fail = seg.sgl_max_consec_fail)
    (hbytes : seg.sgl_bytes_pushed ≤ seg1.sgl_bytes_pushed) :
    lists_extend flist (set_seg flist1 index seg1) := by
  intro j segj hj
  have h0 := seg_at_nonneg _ _ _ hseg
  by_cases hji : j = index
  · subst hji
    rw [hseg] at hj
    cases hj
    refine ⟨seg1, ?_, hmin, hmax, hfail, hbytes⟩
    exact seg_at_set_seg_self flist1 j seg seg1 (by rw [hlists]; exact hseg)
  · refine ⟨segj, ?_, rfl, rfl, rfl, le_refl _⟩
    rw [seg_at_set_seg_other flist1 index j seg1 h0 hji, hlists]
    exact hj

/-- Whatever a growth attempt returns, it leaves the configuration alone and
every list keeps its bounds and at least its bytes pushed. -/
theorem create_more_elts_preserves (env : externals) (flist : lam_free_lists_t) (index : Int)
    (r : lam_status × lam_free_lists_t)
    (h : lam_free_lists_create_more_elts env flist index = some r) :
    same_config flist r.2 ∧ lists_extend flist r.2 := by
  cases hpool : flist.fl_pool with
  | none =>
    simp [lam_free_lists_create_more_elts, lam_free_lists_get_mem_chunk, hpool] at h
  | some pool =>
    by_cases hhi : flist.fl_nlists ≤ index
    · rw [create_more_elts_eq_bounds env flist pool index hpool hhi] at h
      cases h
      exact ⟨same_config_refl _, lists_extend_refl _⟩
    · have hhi1 : index < flist.fl_nlists := by omega
      have hge : ¬ index ≥ flist.fl_nlists := by omega
      cases hseg : seg_at flist.fl_free_lists index with
      | none =>
        simp [lam_free_lists_create_more_elts, lam_free_lists_get_mem_chunk, hpool, hge,
          hseg] at h
      | some seg =>
        by_cases hcap : cap_exceeded seg (lam_mp_get_chunk_size pool)
        · rw [create_more_elts_eq_cap env flist pool index seg hpool hhi1 hseg hcap] at h
          cases h
          exact ⟨same_config_set_seg _ _ _,
            lists_extend_set_seg flist flist index seg _ rfl hseg rfl rfl rfl (le_refl _)⟩
        · by_cases hnull : (lam_mp_request_chunk pool index).1 = 0
          · rw [create_more_elts_eq_null env flist pool index seg hpool hhi1 hseg hcap
              hnull] at h
            cases h
            exact ⟨same_config_request _ _ _ _ _ hpool,
              lists_extend_set_seg flist _ index seg _ rfl hseg rfl rfl rfl (le_refl _)⟩
          · cases hbind : bind_affinity env flist (lam_mp_request_chunk pool index).1
                (some (lam_mp_get_chunk_size pool)) index with
            | none =>
              have hbind1 : bind_affinity env
                  (set_seg { flist with fl_pool := some (lam_mp_request_chunk pool index).2 }
                    index (lam_sgl_set_consec_fail seg 0))
                  (lam_mp_request_chunk pool index).1 (some (lam_mp_get_chunk_size pool)) index
                    = none := hbind
              unfold lam_free_lists_create_more_elts at h
              rw [get_mem_chunk_eq_chunk flist pool index seg none LAM_SUCCESS hpool hhi1 hseg
                hcap hnull] at h
              simp [hnull, hbind1] at h
            | some failed =>
              by_cases hrel : failed = true ∧ env.DEBUGQUEUES = true
              · rcases hrel with ⟨hf, hd⟩
                subst hf
                rw [create_more_elts_eq_debug env flist pool index seg hpool hhi1 hseg hcap
                  hnull hbind hd] at h
                cases h
                exact ⟨same_config_request _ _ _ _ _ hpool,
                  lists_extend_set_seg flist _ index seg _ rfl hseg rfl rfl rfl (le_refl _)⟩
              · rcases create_more_elts_eq_grow env flist pool index seg failed hpool hhi1
                  hseg hcap hnull hbind hrel with ⟨flist2, heq, hs2, hoth, _, _, hcfg⟩
                rw [heq] at h
                cases h
                refine ⟨hcfg, ?_⟩
                intro j segj hj
                by_cases hji : j = index
                · subst hji
                  rw [hseg] at hj
                  cases hj
                  refine ⟨_, hs2, rfl, rfl, rfl, ?_⟩
                  simp only [lam_sgl_append_elt_chunk, lam_sgl_set_consec_fail]
                  omega
                · exact ⟨segj, by rw [hoth j hji]; exact hj, rfl, rfl, rfl, le_refl _⟩

/-! ### The pre-fill -/

/-- When the inner loop of the pre-fill ends, the list it filled holds at
least its minimum, and the loop left the configuration and the other lists'
bounds alone. -/
theorem prefill_list_ok (env : externals) (pool_idx : Int) :
    ∀ (fuel : Nat) (flist flist1 : lam_free_lists_t),
      prefill_list env pool_idx fuel flist = Outcome.ok flist1 →
      same_config flist flist1 ∧ lists_extend flist flist1 ∧
      ∃ seg1, seg_at flist1.fl_free_lists pool_idx = some seg1 ∧
        seg1.sgl_min_bytes_pushed ≤ seg1.sgl_bytes_pushed := by
  intro fuel
  induction fuel with
  | zero =>
    intro flist flist1 h
    unfold prefill_list at h
    cases hseg : seg_at flist.fl_free_lists pool_idx with
    | none => simp [hseg] at h
    | some seg =>
      simp only [hseg, lam_sgl_get_bytes_pushed, lam_sgl_get_min_bytes_pushed] at h
      by_cases hlt : seg.sgl_bytes_pushed < seg.sgl_min_bytes_pushed
      · simp [hlt] at h
      · simp only [hlt, if_false] at h
        cases h
        exact ⟨same_config_refl _, lists_extend_refl _, seg, hseg, by omega⟩
  | succ fuel ih =>
    intro flist flist1 h
    unfold prefill_list at h
    cases hseg : seg_at flist.fl_free_lists pool_idx with
    | none => simp [hseg] at h
    | some seg =>
      simp only [hseg, lam_sgl_get_bytes_pushed, lam_sgl_get_min_bytes_pushed] at h
      by_cases hlt : seg.sgl_bytes_pushed < seg.sgl_min_bytes_pushed
      · simp only [hlt, if_true] at h
        cases hc : lam_free_lists_create_more_elts env flist pool_idx with
        | none => simp [hc] at h
        | some r =>
          simp only [hc] at h
          by_cases hr : r.1 ≠ LAM_SUCCESS
          · simp [hr] at h
          · simp only [hr, if_false] at h
            rcases create_more_elts_preserves env flist pool_idx r hc with ⟨hcfg, hext⟩
            rcases ih r.2 flist1 h with ⟨hcfg1, hext1, hfin⟩
            exact ⟨same_config_trans _ _ _ hcfg hcfg1, lists_extend_trans _ _ _ hext hext1,
              hfin⟩
      · simp only [hlt, if_false] at h
        cases h
        exact ⟨same_config_refl _, lists_extend_refl _, seg, hseg, by omega⟩

/-- When the outer loop of the pre-fill ends, every list it visited holds at
least its minimum. -/
theorem prefill_all_ok (env : externals) (fuel : Nat) :
    ∀ (pools : List Int) (flist flist1 : lam_free_lists_t),
      prefill_all env fuel pools flist = Outcome.ok flist1 →
      same_config flist flist1 ∧ lists_extend flist flist1 ∧
      ∀ i ∈ pools, ∃ seg1, seg_at flist1.fl_free_lists i = some seg1 ∧
        seg1.sgl_min_bytes_pushed ≤ seg1.sgl_bytes_pushed := by
  intro pools
  induction pools with
  | nil =>
    intro flist flist1 h
    simp only [prefill_all] at h
    cases h
    exact ⟨same_config_refl _, lists_extend_refl _, by simp⟩
  | cons p rest ih =>
    intro flist flist1 h
    unfold prefill_all at h
    by_cases hlock : env.lam_sgl_lock_list p = true
    · simp only [hlock, if_true] at h
      cases hp : prefill_list env p fuel flist with
      | ok flist2 =>
        simp only [hp] at h
        rcases prefill_list_ok env p fuel flist flist2 hp with ⟨hcfg, hext, seg2, hs2, hb2⟩
        rcases ih flist2 flist1 h with ⟨hcfg1, hext1, hall⟩
        refine ⟨same_config_trans _ _ _ hcfg hcfg1, lists_extend_trans _ _ _ hext hext1, ?_⟩
        intro i hi
        rcases List.mem_cons.mp hi with hip | hir
        · subst hip
          rcases hext1 i seg2 hs2 with ⟨seg3, hs3, hm3, _, _, hb3⟩
          exact ⟨seg3, hs3, by omega⟩
        · exact hall i hir
      | aborted => simp [hp] at h
      | undefined => simp [hp] at h
      | out_of_fuel => simp [hp] at h
    · simp [hlock] at h

/-! ### What a returning `lam_free_lists_construct_with` has done -/

theorem mem_list_indices (nlists i : Int) (h0 : 0 ≤ i) (h1 : i < nlists) :
    i ∈ list_indices nlists := by
  unfold list_indices
  refine List.mem_map.mpr ⟨i.toNat, ?_, ?_⟩
  · rw [List.mem_range]
    omega
  · simp only [Int.ofNat_eq_coe]
    omega

theorem seg_at_replicate (n : Nat) (cfg : lam_seg_list_t) (i : Int) (h0 : 0 ≤ i)
    (h1 : i < n) : seg_at (List.replicate n cfg) i = some cfg := by
  unfold seg_at
  have hneg : ¬ i < 0 := by omega
  simp only [hneg, if_false]
  rw [List.getElem?_replicate]
  have hlt : i.toNat < n := by omega
  simp [hlt]

/-- The lists a returning `construct_lists` leaves: sized by the sizing block,
one per index, each holding at least its minimum. -/
theorem construct_lists_ok (env : externals) (fuel : Nat) (flist : lam_free_lists_t)
    (pool : lam_mem_pool_t) (err : lam_status) (page_size elt_size : Nat)
    (min_pages_per_list max_pages_per_list max_consec_req_fail : Int)
    (retry_for_more_resources : Bool) (affinity : List Nat) (enforce_affinity : Bool)
    (r : lam_status × lam_free_lists_t)
    (h : construct_lists env fuel flist pool err page_size elt_size min_pages_per_list
      max_pages_per_list max_consec_req_fail retry_for_more_resources affinity
      enforce_affinity = Outcome.ok r) :
    r.1 = err ∧
    ∃ sz, compute_sizing (lam_mp_get_chunk_size pool) page_size elt_size min_pages_per_list
        max_pages_per_list = some sz ∧
      r.2.fl_nlists = flist.fl_nlists ∧
      r.2.fl_elt_per_chunk = sz.elt_per_chunk ∧
      r.2.fl_elt_size = flist.fl_elt_size ∧
      r.2.fl_pool.map lam_mp_get_chunk_size = flist.fl_pool.map lam_mp_get_chunk_size ∧
      r.2.fl_free_lists.length = flist.fl_nlists.toNat ∧
      ∀ i : Int, 0 ≤ i → i < flist.fl_nlists →
        ∃ seg, seg_at r.2.fl_free_lists i = some seg ∧
          seg.sgl_min_bytes_pushed = sz.initial_mem_per_list ∧
          seg.sgl_max_bytes_pushed = sz.max_mem_per_list ∧
          seg.sgl_max_consec_fail = max_consec_req_fail ∧
          seg.sgl_min_bytes_pushed ≤ seg.sgl_bytes_pushed := by
  unfold construct_lists at h
  cases hsz : compute_sizing (lam_mp_get_chunk_size pool) page_size elt_size
      min_pages_per_list max_pages_per_list with
  | none => simp [hsz] at h
  | some sz =>
    simp only [hsz] at h
    by_cases halloc : env.alloc_ok = true
    · simp only [halloc, not_true_eq_false, if_false] at h
      by_cases haffl : enforce_affinity = true ∧ affinity.length < flist.fl_nlists.toNat
      · simp [haffl] at h
      · simp only [haffl, if_false] at h
        generalize hfl1 : ({ flist with
            fl_elt_per_chunk := (sz.elt_per_chunk : Int)
            fl_free_lists := List.replicate flist.fl_nlists.toNat
              (configured_list sz.initial_mem_per_list sz.max_mem_per_list max_consec_req_fail)
            fl_retry_more_resources := retry_for_more_resources
            fl_enforce_affinity := enforce_affinity
            fl_affinity :=
              if enforce_affinity = true then affinity.take flist.fl_nlists.toNat
              else flist.fl_affinity } : lam_free_lists_t) = flist1 at h
        have hn1 : flist1.fl_nlists = flist.fl_nlists := by rw [← hfl1]
        have he1 : flist1.fl_elt_per_chunk = sz.elt_per_chunk := by rw [← hfl1]
        have hs1 : flist1.fl_elt_size = flist.fl_elt_size := by rw [← hfl1]
        have hp1 : flist1.fl_pool = flist.fl_pool := by rw [← hfl1]
        have hl1 : flist1.fl_free_lists = List.replicate flist.fl_nlists.toNat
            (configured_list sz.initial_mem_per_list sz.max_mem_per_list max_consec_req_fail) := by
          rw [← hfl1]
        cases hpre : prefill_all env fuel (list_indices flist.fl_nlists) flist1 with
        | ok flist2 =>
          simp only [hpre] at h
          cases h
          rcases prefill_all_ok env fuel _ flist1 flist2 hpre with ⟨hcfg, hext, hall⟩
          rcases hcfg with ⟨c1, _, _, c4, c5, _, c7, c8⟩
          refine ⟨rfl, sz, rfl, c1.trans hn1, c5.trans he1, c4.trans hs1, ?_, ?_, ?_⟩
          · rw [c8, hp1]
          · rw [c7, hl1]
            simp
          · intro i h0 h1
            have hcfgi : seg_at flist1.fl_free_lists i = some
                (configured_list sz.initial_mem_per_list sz.max_mem_per_list
                  max_consec_req_fail) := by
              rw [hl1]
              exact seg_at_replicate _ _ i h0 (by omega)
            rcases hext i _ hcfgi with ⟨seg2, hs2, hm2, hx2, hf2, _⟩
            rcases hall i (mem_list_indices _ i h0 h1) with
              ⟨seg3, hs3, hb3⟩
            rw [hs2] at hs3
            cases hs3
            exact ⟨seg2, hs2, hm2, hx2, hf2, hb3⟩
        | aborted => simp [hpre] at h
        | undefined => simp [hpre] at h
        | out_of_fuel => simp [hpre] at h
    · simp [halloc] at h

theorem setup_pool_fields (env : externals) (flist : lam_free_lists_t)
    (nlists pages_per_list : Int) (chunk_size page_size : Nat)
    (min_pages_per_list max_pages_per_list : Int) (mem_pool : Option lam_mem_pool_t)
    (r : lam_status × lam_free_lists_t)
    (h : setup_pool env flist nlists pages_per_list chunk_size page_size min_pages_per_list
      max_pages_per_list mem_pool = some r) :
    r.2.fl_nlists = flist.fl_nlists ∧ r.2.fl_elt_size = flist.fl_elt_size ∧
    (∀ p, mem_pool = some p → r.2.fl_pool = some p) := by
  unfold setup_pool at h
  cases mem_pool with
  | some pool =>
    simp only [Option.some.injEq] at h
    subst h
    exact ⟨rfl, rfl, fun p hp => by cases hp; rfl⟩
  | none =>
    simp only [lam_free_lists_mem_pool_construct] at h
    by_cases hz : page_size = 0
    · simp [hz] at h
    · simp only [hz, if_false, Option.some.injEq] at h
      subst h
      exact ⟨rfl, rfl, fun p hp => by cases hp⟩

/-- What a `lam_free_lists_construct_with` that returns `LAM_SUCCESS` has
done: the pool is in place, the sizes are those of the sizing block for the
pool's chunk size, and each of the `nlists` lists exists, is configured with
them and holds at least its minimum. -/
theorem construct_with_ok (env : externals) (fuel : Nat) (flist : lam_free_lists_t)
    (nlists pages_per_list : Int) (chunk_size page_size elt_size : Nat)
    (min_pages_per_list max_pages_per_list max_consec_req_fail : Int)
    (description : String) (retry_for_more_resources : Bool) (affinity : List Nat)
    (enforce_affinity : Bool) (mem_pool : Option lam_mem_pool_t)
    (hok : (lam_free_lists_construct_with env fuel flist nlists pages_per_list chunk_size
      page_size elt_size min_pages_per_list max_pages_per_list max_consec_req_fail description
      retry_for_more_resources affinity enforce_affinity mem_pool).result.map Prod.fst
        = some LAM_SUCCESS) :
    ∃ flist1 pool sz,
      (lam_free_lists_construct_with env fuel flist nlists pages_per_list chunk_size
        page_size elt_size min_pages_per_list max_pages_per_list max_consec_req_fail
        description retry_for_more_resources affinity enforce_affinity mem_pool).result
          = some (LAM_SUCCESS, flist1) ∧
      flist1.fl_pool = some pool ∧
      (∀ p, mem_pool = some p → lam_mp_get_chunk_size pool = lam_mp_get_chunk_size p) ∧
      compute_sizing (lam_mp_get_chunk_size pool) page_size elt_size min_pages_per_list
        max_pages_per_list = some sz ∧
      flist1.fl_nlists = nlists ∧
      flist1.fl_elt_per_chunk = sz.elt_per_chunk ∧
      flist1.fl_elt_size = flist.fl_elt_size ∧
      flist1.fl_free_lists.length = nlists.toNat ∧
      ∀ i : Int, 0 ≤ i → i < nlists →
        ∃ seg, seg_at flist1.fl_free_lists i = some seg ∧
          seg.sgl_min_bytes_pushed = sz.initial_mem_per_list ∧
          seg.sgl_max_bytes_pushed = sz.max_mem_per_list ∧
          seg.sgl_max_consec_fail = max_consec_req_fail ∧
          seg.sgl_min_bytes_pushed ≤ seg.sgl_bytes_pushed := by
  unfold lam_free_lists_construct_with at hok ⊢
  cases hsetup : setup_pool env { flist with fl_description := description, fl_nlists := nlists }
      nlists pages_per_list chunk_size page_size min_pages_per_list max_pages_per_list
      mem_pool with
  | none => simp [hsetup, Outcome.result] at hok
  | some r0 =>
    rcases setup_pool_fields env _ nlists pages_per_list chunk_size page_size
      min_pages_per_list max_pages_per_list mem_pool r0 hsetup with ⟨hn0, hs0, hp0⟩
    simp only [hsetup] at hok ⊢
    by_cases hr0 : r0.1 ≠ LAM_SUCCESS
    · rw [if_pos hr0] at hok
      simp only [Outcome.result, Option.map_some', Option.some.injEq] at hok
      exact absurd hok hr0
    · rw [if_neg hr0] at hok ⊢
      have hr0s : r0.1 = LAM_SUCCESS := by
        by_contra hne
        exact hr0 hne
      cases hpool : r0.2.fl_pool with
      | none => simp [hpool, Outcome.result] at hok
      | some pool =>
        simp only [hpool] at hok ⊢
        cases hcl : construct_lists env fuel r0.2 pool r0.1 page_size elt_size
            min_pages_per_list max_pages_per_list max_consec_req_fail retry_for_more_resources
            affinity enforce_affinity with
        | ok r =>
          rcases construct_lists_ok env fuel r0.2 pool r0.1 page_size elt_size
            min_pages_per_list max_pages_per_list max_consec_req_fail retry_for_more_resources
            affinity enforce_affinity r hcl with ⟨he, sz, hsz, hn, hepc, hes, hpl, hlen, hall⟩
          have hpm : r.2.fl_pool.map lam_mp_get_chunk_size = some (lam_mp_get_chunk_size pool) := by
            rw [hpl, hpool]
            rfl
          cases hpool1 : r.2.fl_pool with
          | none => simp [hpool1] at hpm
          | some pool1 =>
            have hc1 : lam_mp_get_chunk_size pool1 = lam_mp_get_chunk_size pool := by
              simpa [hpool1] using hpm
            refine ⟨r.2, pool1, sz, ?_, hpool1, ?_, ?_, hn.trans hn0, hepc, hes.trans hs0, ?_, ?_⟩
            · simp only [Outcome.result]
              rw [← hr0s, ← he]
            · intro p hp
              have := hp0 p hp
              rw [hpool] at this
              cases this
              exact hc1
            · rw [hc1]
              exact hsz
            · rw [hlen, hn0]
            · intro i h0 h1
              exact hall i h0 (by rw [hn0]; exact h1)
        | aborted => simp [hcl, Outcome.result] at hok
        | undefined => simp [hcl, Outcome.result] at hok
        | out_of_fuel => simp [hcl, Outcome.result] at hok

/-! ### C6: elements per chunk -/

theorem compute_sizing_elt_per_chunk (chunk_size page_size elt_size : Nat)
    (min_pages_per_list max_pages_per_list : Int) (sz : list_sizing)
    (h : compute_sizing chunk_size page_size elt_size min_pages_per_list max_pages_per_list
      = some sz) : sz.elt_per_chunk = chunk_size / elt_size := by
  unfold compute_sizing at h
  by_cases he : elt_size = 0
  · simp [he] at h
  · simp only [he, if_false] at h
    split at h
    · cases h
    · simp only [Option.some.injEq] at h
      rw [← h]

/-- C6: for an element size `e > 0`, after a `lam_free_lists_construct_with`
that returned `LAM_SUCCESS` the set's `fl_elt_per_chunk` is `c / e` rounded
down, `c` being the chunk size of the set's pool (that of the pool handed in
when there is one, whatever `chunk_size` the caller passed); so
`fl_elt_per_chunk * e <= c` and the remainder `c - fl_elt_per_chunk * e` is at
most `e - 1`. -/
theorem elements_per_chunk_floor (env : externals) (fuel : Nat) (flist : lam_free_lists_t)
    (nlists pages_per_list : Int) (chunk_size page_size elt_size : Nat)
    (min_pages_per_list max_pages_per_list max_consec_req_fail : Int)
    (description : String) (retry_for_more_resources : Bool) (affinity : List Nat)
    (enforce_affinity : Bool) (mem_pool : Option lam_mem_pool_t)
    (he : 0 < elt_size)
    (hok : (lam_free_lists_construct_with env fuel flist nlists pages_per_list chunk_size
      page_size elt_size min_pages_per_list max_pages_per_list max_consec_req_fail description
      retry_for_more_resources affinity enforce_affinity mem_pool).result.map Prod.fst
        = some LAM_SUCCESS) :
    ∃ flist1 pool,
      (lam_free_lists_construct_with env fuel flist nlists pages_per_list chunk_size
        page_size elt_size min_pages_per_list max_pages_per_list max_consec_req_fail
        description retry_for_more_resources affinity enforce_affinity mem_pool).result
          = some (LAM_SUCCESS, flist1) ∧
      flist1.fl_pool = some pool ∧
      (∀ p, mem_pool = some p → lam_mp_get_chunk_size pool = lam_mp_get_chunk_size p) ∧
      flist1.fl_elt_per_chunk = ((lam_mp_get_chunk_size pool / elt_size : Nat) : Int) ∧
      (lam_mp_get_chunk_size pool / elt_size) * elt_size ≤ lam_mp_get_chunk_size pool ∧
      lam_mp_get_chunk_size pool - (lam_mp_get_chunk_size pool / elt_size) * elt_size
        ≤ elt_size - 1 := by
  rcases construct_with_ok env fuel flist nlists pages_per_list chunk_size page_size elt_size
    min_pages_per_list max_pages_per_list max_consec_req_fail description
    retry_for_more_resources affinity enforce_affinity mem_pool hok with
    ⟨flist1, pool, sz, hres, hpool, hmp, hsz, _, hepc, _, _, _⟩
  refine ⟨flist1, pool, hres, hpool, hmp, ?_, Nat.div_mul_le_self _ _, ?_⟩
  · rw [hepc, compute_sizing_elt_per_chunk _ _ _ _ _ sz hsz]
  · have hmod : lam_mp_get_chunk_size pool % elt_size < elt_size := Nat.mod_lt _ he
    have hda := Nat.div_add_mod (lam_mp_get_chunk_size pool) elt_size
    rw [Nat.mul_comm] at hda
    omega

/-- C6 at a concrete input: four lists, element size 64, a pool of 4096-byte
chunks handed in and a caller `chunk_size` of 1000. -/
theorem elements_per_chunk_floor_witness :
    ∃ flist1 pool,
      (lam_free_lists_construct_with demo_env 4 lam_free_lists_construct 4 1 1000 4096 64 1 (-1)
        3 "demo" false [] false (some demo_pool)).result = some (LAM_SUCCESS, flist1) ∧
      flist1.fl_pool = some pool ∧
      (∀ p, some demo_pool = some p → lam_mp_get_chunk_size pool = lam_mp_get_chunk_size p) ∧
      flist1.fl_elt_per_chunk = ((lam_mp_get_chunk_size pool / 64 : Nat) : Int) ∧
      (lam_mp_get_chunk_size pool / 64) * 64 ≤ lam_mp_get_chunk_size pool ∧
      lam_mp_get_chunk_size pool - (lam_mp_get_chunk_size pool / 64) * 64 ≤ 64 - 1 :=
  elements_per_chunk_floor demo_env 4 lam_free_lists_construct 4 1 1000 4096 64 1 (-1) 3 "demo"
    false [] false (some demo_pool) (by decide) (by decide)

/-! ### Machine arithmetic that fits -/

theorem to_size_t_of_fits (x : Int) (h0 : 0 ≤ x) (h1 : x < 2 ^ 64) : (to_size_t x : Int) = x := by
  unfold to_size_t
  omega

theorem to_size_t_natCast (m : Nat) (h1 : m < 2 ^ 64) : to_size_t (m : Int) = m := by
  have := to_size_t_of_fits (m : Int) (by omega) (by exact_mod_cast h1)
  exact_mod_cast this

theorem to_int_of_fits (x : Int) (h0 : -(2 ^ 31) ≤ x) (h1 : x < 2 ^ 31) : to_int x = x := by
  unfold to_int
  omega

theorem to_long_of_fits (x : Int) (h0 : -(2 ^ 63) ≤ x) (h1 : x < 2 ^ 63) : to_long x = x := by
  unfold to_long
  omega

theorem size_mul_of_fits (a b : Nat) (h : a * b < 2 ^ 64) : size_mul a b = a * b := by
  unfold size_mul
  exact Nat.mod_eq_of_lt h

theorem size_add_of_fits (a b : Nat) (h : a + b < 2 ^ 64) : size_add a b = a + b := by
  unfold size_add
  exact Nat.mod_eq_of_lt h


/-! ### C8: the bounds each list is configured with -/

theorem code_ceil_eq_spec_ceil (c p : Nat) (hc : 1 ≤ c) (hp : 1 ≤ p) : (c - 1) / p + 1 = spec_ceil_div c p := by
  unfold spec_ceil_div
  obtain ⟨q, r, hr, rfl⟩ : ∃ q r, r < p ∧ c = p * q + r := ⟨c / p, c % p, Nat.mod_lt _ hp, (Nat.div_add_mod c p).symm⟩
  have h1 : (p * q + r) % p = r := by
    rw [Nat.mul_add_mod]; exact Nat.mod_eq_of_lt hr
  have h2 : (p * q + r) / p = q := by
    rw [Nat.mul_add_div hp, Nat.div_eq_of_lt hr]; simp
  rw [h1, h2]
  by_cases hr0 : r = 0
  · subst hr0
    simp only [if_true, Nat.add_zero]
    have hq : 1 ≤ q := by
      rcases Nat.eq_zero_or_pos q with h | h
      · subst h; simp at hc
      · exact h
    obtain ⟨q', rfl⟩ : ∃ q', q = q' + 1 := ⟨q - 1, by omega⟩
    have : p * (q' + 1) - 1 = p * q' + (p - 1) := by
      rw [Nat.mul_add, Nat.mul_one]; omega
    rw [this, Nat.mul_add_div hp, Nat.div_eq_of_lt (by omega)]
  · simp only [hr0, if_false]
    have : p * q + r - 1 = p * q + (r - 1) := by omega
    rw [this, Nat.mul_add_div hp, Nat.div_eq_of_lt (by omega)]

theorem spec_ceil_div_mul_ge (c p : Nat) (hp : 1 ≤ p) : c ≤ spec_ceil_div c p * p := by
  unfold spec_ceil_div
  have h := Nat.div_add_mod c p
  have hm := Nat.mod_lt c hp
  by_cases h0 : c % p = 0
  · simp only [h0, if_true]
    rw [h0] at h
    rw [Nat.mul_comm]
    omega
  · simp only [h0, if_false]
    rw [Nat.add_mul, Nat.mul_comm (c / p) p]
    omega

theorem compute_sizing_spec (c page_size elt_size : Nat) (min_pages max_pages : Int)
    (sz : list_sizing)
    (h : compute_sizing c page_size elt_size min_pages max_pages = some sz)
    (hpage : 1 ≤ page_size) (hc : 1 ≤ c) (hmin : 0 ≤ min_pages)
    (hfit1 : min_pages * page_size < 2 ^ 64)
    (hfit2 : spec_min_pages c page_size min_pages < 2 ^ 31)
    (hfit3 : spec_min_pages c page_size min_pages * page_size < 2 ^ 64)
    (hfit4 : max_pages ≠ -1 →
      max max_pages (spec_min_pages c page_size min_pages) * page_size < 2 ^ 63) :
    (sz.initial_mem_per_list : Int) = spec_min_pages c page_size min_pages * page_size ∧
    sz.max_mem_per_list = spec_max_bytes c page_size min_pages max_pages := by
  obtain ⟨m, rfl⟩ := Int.eq_ofNat_of_zero_le hmin
  have hpz : page_size ≠ 0 := by omega
  have hf1 : m * page_size < 2 ^ 64 := by exact_mod_cast hfit1
  have hm64 : m < 2 ^ 64 := lt_of_le_of_lt (Nat.le_mul_of_pos_right m hpage) hf1
  -- the rounded page count, as a natural number
  have hP : ∃ P : Nat, spec_min_pages c page_size (m : Int) = (P : Int) ∧
      P = (if m * page_size < c then (c - 1) / page_size + 1 else m) := by
    unfold spec_min_pages
    by_cases hlt : m * page_size < c
    · have hnge : ¬ ((m : Int) * (page_size : Int) ≥ (c : Int)) := by
        have : ((m * page_size : Nat) : Int) < (c : Int) := by exact_mod_cast hlt
        push_cast at this
        omega
      refine ⟨(c - 1) / page_size + 1, ?_, by simp [hlt]⟩
      rw [if_neg hnge, code_ceil_eq_spec_ceil c page_size hc hpage]
    · have hge : ((m : Int) * (page_size : Int) ≥ (c : Int)) := by
        have : (c : Int) ≤ ((m * page_size : Nat) : Int) := by exact_mod_cast Nat.le_of_not_lt hlt
        push_cast at this
        omega
      exact ⟨m, by rw [if_pos hge], by simp [hlt]⟩
  rcases hP with ⟨P, hPs, hPdef⟩
  rw [hPs] at hfit2 hfit3 hfit4
  have hP31 : P < 2 ^ 31 := by exact_mod_cast hfit2
  have hP64 : P * page_size < 2 ^ 64 := by exact_mod_cast hfit3
  unfold compute_sizing at h
  by_cases he : elt_size = 0
  · simp [he] at h
  · simp only [he, if_false, to_size_t_natCast m hm64, size_mul_of_fits m page_size hf1, hpz,
      and_false, Option.some.injEq] at h
    have hmin1 : (if m * page_size < c then to_int ↑(size_add ((c - 1) / page_size) 1)
        else (m : Int)) = (P : Int) := by
      by_cases hlt : m * page_size < c
      · simp only [hlt, if_true] at hPdef ⊢
        rw [size_add_of_fits _ _ (by omega), ← hPdef]
        exact to_int_of_fits _ (by omega) (by exact_mod_cast hP31)
      · simp only [hlt, if_false] at hPdef ⊢
        rw [hPdef]
    rw [hmin1] at h
    have hinit : (if m * page_size < c then size_mul (to_size_t (P : Int)) page_size
        else m * page_size) = P * page_size := by
      by_cases hlt : m * page_size < c
      · simp only [hlt, if_true]
        rw [to_size_t_natCast P (by omega), size_mul_of_fits _ _ hP64]
      · simp only [hlt, if_false] at hPdef ⊢
        rw [hPdef]
    rw [hinit] at h
    rw [← h]
    refine ⟨by push_cast; rw [hPs], ?_⟩
    unfold spec_max_bytes
    rw [hPs]
    by_cases hmx : max_pages = -1
    · subst hmx
      simp
    · have hfit := hfit4 hmx
      simp only [hmx, if_false, ne_eq, not_false_eq_true, true_and]
      have hmaxeq : (if max_pages < (P : Int) then (P : Int) else max_pages)
          = max max_pages (P : Int) := by
        by_cases hl : max_pages < (P : Int)
        · simp only [hl, if_true]
          rw [max_eq_right (le_of_lt hl)]
        · simp only [hl, if_false]
          rw [max_eq_left (by omega)]
      rw [hmaxeq]
      have hM0 : 0 ≤ max max_pages (P : Int) := le_trans (by omega) (le_max_right _ _)
      obtain ⟨M, hM⟩ := Int.eq_ofNat_of_zero_le hM0
      rw [hM] at hfit ⊢
      have hMf : M * page_size < 2 ^ 63 := by exact_mod_cast hfit
      have hM64 : M < 2 ^ 64 := by
        have := Nat.le_mul_of_pos_right M hpage
        omega
      have hne : ¬ ((M : Int) = -1) := by omega
      simp only [hne, if_false]
      rw [to_size_t_natCast M hM64, size_mul_of_fits _ _ (by omega)]
      rw [to_long_of_fits _ (by omega) (by exact_mod_cast hMf)]
      push_cast
      rfl

theorem spec_min_pages_mul_ge (c page_size : Nat) (min_pages : Int) (hpage : 1 ≤ page_size) :
    (c : Int) ≤ spec_min_pages c page_size min_pages * page_size ∧
    min_pages * page_size ≤ spec_min_pages c page_size min_pages * page_size := by
  unfold spec_min_pages
  by_cases h : min_pages * (page_size : Int) ≥ (c : Int)
  · rw [if_pos h]
    exact ⟨h, le_refl _⟩
  · rw [if_neg h]
    have hge : (c : Int) ≤ ((spec_ceil_div c page_size * page_size : Nat) : Int) := by
      exact_mod_cast spec_ceil_div_mul_ge c page_size hpage
    push_cast at hge
    constructor
    · exact hge
    · omega

theorem compute_sizing_initial_max_free (c page_size elt_size : Nat)
    (min_pages max_pages : Int) :
    (compute_sizing c page_size elt_size min_pages max_pages).map
        (fun sz => sz.initial_mem_per_list)
      = (compute_sizing c page_size elt_size min_pages (-1)).map
        (fun sz => sz.initial_mem_per_list) := by
  unfold compute_sizing
  by_cases he : elt_size = 0
  · simp [he]
  · simp only [he, if_false]
    split <;> rfl

/-- C8, the claim as stated fails: with `page_size = 2 ^ 63`, a pool chunk size
of `2 ^ 62` and `min_pages_per_list = 3` the product `3 * 2 ^ 63` wraps around
in `size_t`, the lists are configured with `min_bytes_pushed = 2 ^ 63`, and
`lam_free_lists_construct_with` returns with that; the claimed value is
`3 * 2 ^ 63`. -/
theorem min_bytes_pushed_wraps_around :
    (compute_sizing (2 ^ 62) (2 ^ 63) (2 ^ 62) 3 (-1)).map
        (fun sz => sz.initial_mem_per_list) = some (2 ^ 63) ∧
    (lam_free_lists_construct_with demo_env 4 lam_free_lists_construct 1 1 (2 ^ 62) (2 ^ 63)
        (2 ^ 62) 3 (-1) 3 "demo" false [] false (some huge_pool)).result.map
      (fun r => (r.1, r.2.fl_free_lists.map (fun seg => seg.sgl_min_bytes_pushed)))
      = some (LAM_SUCCESS, [2 ^ 63]) ∧
    spec_min_pages (2 ^ 62) (2 ^ 63) 3 * ((2 ^ 63 : Nat) : Int) = 3 * 2 ^ 63 ∧
    ((2 ^ 63 : Nat) : Int) ≠ spec_min_pages (2 ^ 62) (2 ^ 63) 3 * ((2 ^ 63 : Nat) : Int) := by
  decide

/-- C8 as amended: for `page_size >= 1`, pool chunk size `c >= 1` and
`min_pages_per_list >= 0` such that the products the code forms fit their
types (`min_pages_per_list * page_size` and `p * page_size` in 64 unsigned bits,
`p` in a 32-bit `int`, and for a finite maximum `max(max_pages_per_list, p) *
page_size` in a 64-bit `long`), a `lam_free_lists_construct_with` that returns
`LAM_SUCCESS` has configured every list with `min_bytes_pushed = p * page_size`,
`p` being `min_pages_per_list` if `min_pages_per_list * page_size >= c` and
`ceil(c / page_size)` otherwise, so `min_bytes_pushed >= c`; and with
`max_bytes_pushed = -1` if `max_pages_per_list = -1` and
`max(max_pages_per_list, p) * page_size` otherwise, so a finite
`max_bytes_pushed` is never below `min_bytes_pushed`. -/
theorem list_bounds_configured (env : externals) (fuel : Nat) (flist : lam_free_lists_t)
    (nlists pages_per_list : Int) (chunk_size page_size elt_size : Nat)
    (min_pages_per_list max_pages_per_list max_consec_req_fail : Int)
    (description : String) (retry_for_more_resources : Bool) (affinity : List Nat)
    (enforce_affinity : Bool) (mem_pool : Option lam_mem_pool_t) (c : Nat)
    (hok : (lam_free_lists_construct_with env fuel flist nlists pages_per_list chunk_size
      page_size elt_size min_pages_per_list max_pages_per_list max_consec_req_fail description
      retry_for_more_resources affinity enforce_affinity mem_pool).result.map Prod.fst
        = some LAM_SUCCESS)
    (hc : (lam_free_lists_construct_with env fuel flist nlists pages_per_list chunk_size
      page_size elt_size min_pages_per_list max_pages_per_list max_consec_req_fail description
      retry_for_more_resources affinity enforce_affinity mem_pool).result.bind
        (fun r => r.2.fl_pool.map lam_mp_get_chunk_size) = some c)
    (hpage : 1 ≤ page_size) (hc1 : 1 ≤ c) (hmin : 0 ≤ min_pages_per_list)
    (hfit1 : min_pages_per_list * page_size < 2 ^ 64)
    (hfit2 : spec_min_pages c page_size min_pages_per_list < 2 ^ 31)
    (hfit3 : spec_min_pages c page_size min_pages_per_list * page_size < 2 ^ 64)
    (hfit4 : max_pages_per_list ≠ -1 →
      max max_pages_per_list (spec_min_pages c page_size min_pages_per_list) * page_size
        < 2 ^ 63) :
    ∃ flist1,
      (lam_free_lists_construct_with env fuel flist nlists pages_per_list chunk_size
        page_size elt_size min_pages_per_list max_pages_per_list max_consec_req_fail
        description retry_for_more_resources affinity enforce_affinity mem_pool).result
          = some (LAM_SUCCESS, flist1) ∧
      ∀ i : Int, 0 ≤ i → i < nlists →
        ∃ seg, seg_at flist1.fl_free_lists i = some seg ∧
          seg.sgl_min_bytes_pushed
            = spec_min_pages c page_size min_pages_per_list * page_size ∧
          (c : Int) ≤ seg.sgl_min_bytes_pushed ∧
          seg.sgl_max_bytes_pushed
            = spec_max_bytes c page_size min_pages_per_list max_pages_per_list ∧
          (seg.sgl_max_bytes_pushed ≠ -1 →
            seg.sgl_min_bytes_pushed ≤ seg.sgl_max_bytes_pushed) := by
  rcases construct_with_ok env fuel flist nlists pages_per_list chunk_size page_size elt_size
    min_pages_per_list max_pages_per_list max_consec_req_fail description
    retry_for_more_resources affinity enforce_affinity mem_pool hok with
    ⟨flist1, pool, sz, hres, hpool, _, hsz, _, _, _, _, hall⟩
  have hcp : lam_mp_get_chunk_size pool = c := by
    rw [hres] at hc
    simpa [hpool] using hc
  rw [hcp] at hsz
  rcases compute_sizing_spec c page_size elt_size min_pages_per_list max_pages_per_list sz hsz
    hpage hc1 hmin hfit1 hfit2 hfit3 hfit4 with ⟨hinit, hmaxm⟩
  rcases spec_min_pages_mul_ge c page_size min_pages_per_list hpage with ⟨hge, _⟩
  refine ⟨flist1, hres, ?_⟩
  intro i h0 h1
  rcases hall i h0 h1 with ⟨seg, hseg, hm, hx, _, _⟩
  refine ⟨seg, hseg, by rw [hm, hinit], by rw [hm, hinit]; exact hge, by rw [hx, hmaxm], ?_⟩
  intro hne
  rw [hm, hinit, hx, hmaxm]
  rw [hx, hmaxm] at hne
  unfold spec_max_bytes at hne ⊢
  by_cases hmx : max_pages_per_list = -1
  · rw [if_pos hmx] at hne
    exact absurd rfl hne
  · rw [if_neg hmx]
    exact mul_le_mul_of_nonneg_right (le_max_right _ _) (by omega)

/-- C8 as amended, at a concrete input: four lists, pages of 4096 bytes, a pool
of 4096-byte chunks, `min_pages_per_list = 1` and `max_pages_per_list = 8`. -/
theorem list_bounds_configured_witness :
    ∃ flist1,
      (lam_free_lists_construct_with demo_env 4 lam_free_lists_construct 4 1 1000 4096 64 1 8
        3 "demo" false [] false (some demo_pool)).result = some (LAM_SUCCESS, flist1) ∧
      ∀ i : Int, 0 ≤ i → i < 4 →
        ∃ seg, seg_at flist1.fl_free_lists i = some seg ∧
          seg.sgl_min_bytes_pushed = spec_min_pages 4096 4096 1 * ((4096 : Nat) : Int) ∧
          ((4096 : Nat) : Int) ≤ seg.sgl_min_bytes_pushed ∧
          seg.sgl_max_bytes_pushed = spec_max_bytes 4096 4096 1 8 ∧
          (seg.sgl_max_bytes_pushed ≠ -1 →
            seg.sgl_min_bytes_pushed ≤ seg.sgl_max_bytes_pushed) :=
  list_bounds_configured demo_env 4 lam_free_lists_construct 4 1 1000 4096 64 1 8 3 "demo"
    false [] false (some demo_pool) 4096 (by decide) (by decide) (by decide) (by decide)
    (by decide) (by decide) (by decide) (by decide) (fun _ => by decide)

/-! ### C9: the lists are filled to their minimum -/

/-- C9, the claim as stated fails, in two ways.  When the private pool cannot
be built, `lam_free_lists_construct_with` returns (the pool's error) with
`fl_nlists = 4` and no list at all.  And with `page_size = 2 ^ 63`, a pool chunk
size of `2 ^ 62` and `min_pages_per_list = 3` it returns `LAM_SUCCESS` with the
list filled to its `min_bytes_pushed = 2 ^ 63`, which is below
`min_pages_per_list * page_size = 3 * 2 ^ 63`. -/
theorem construct_with_returns_unfilled :
    (lam_free_lists_construct_with failing_pool_env 4 lam_free_lists_construct 4 1 4096 4096 64
        1 (-1) 3 "demo" false [] false none).result.map
      (fun r => (r.1, r.2.fl_nlists, r.2.fl_free_lists.length, seg_at r.2.fl_free_lists 0))
      = some (LAM_ERR_OUT_OF_RESOURCE, 4, 0, none) ∧
    (lam_free_lists_construct_with demo_env 4 lam_free_lists_construct 1 1 (2 ^ 62) (2 ^ 63)
        (2 ^ 62) 3 (-1) 3 "demo" false [] false (some huge_pool)).result.map
      (fun r => (r.1, r.2.fl_free_lists.map
        (fun seg => (seg.sgl_bytes_pushed, seg.sgl_min_bytes_pushed))))
      = some (LAM_SUCCESS, [(2 ^ 63, 2 ^ 63)]) ∧
    (2 ^ 63 : Int) < 3 * ((2 ^ 63 : Nat) : Int) := by
  decide

/-- C9 as amended: whenever `lam_free_lists_construct_with` returns
`LAM_SUCCESS`, every one of the `nlists` lists exists and has
`bytes_pushed >= min_bytes_pushed`; and that minimum is at least the caller's
`min_pages_per_list * page_size` when `page_size >= 1`, the pool's chunk size
`c >= 1`, `min_pages_per_list >= 0` and the products the code forms fit their
types (`min_pages_per_list * page_size` and `p * page_size` in 64 unsigned bits,
`p` in a 32-bit `int`, `p` the rounded page count). -/
theorem prefilled_on_success (env : externals) (fuel : Nat) (flist : lam_free_lists_t)
    (nlists pages_per_list : Int) (chunk_size page_size elt_size : Nat)
    (min_pages_per_list max_pages_per_list max_consec_req_fail : Int)
    (description : String) (retry_for_more_resources : Bool) (affinity : List Nat)
    (enforce_affinity : Bool) (mem_pool : Option lam_mem_pool_t)
    (hok : (lam_free_lists_construct_with env fuel flist nlists pages_per_list chunk_size
      page_size elt_size min_pages_per_list max_pages_per_list max_consec_req_fail description
      retry_for_more_resources affinity enforce_affinity mem_pool).result.map Prod.fst
        = some LAM_SUCCESS) :
    ∃ flist1,
      (lam_free_lists_construct_with env fuel flist nlists pages_per_list chunk_size
        page_size elt_size min_pages_per_list max_pages_per_list max_consec_req_fail
        description retry_for_more_resources affinity enforce_affinity mem_pool).result
          = some (LAM_SUCCESS, flist1) ∧
      flist1.fl_free_lists.length = nlists.toNat ∧
      ∀ i : Int, 0 ≤ i → i < nlists →
        ∃ seg, seg_at flist1.fl_free_lists i = some seg ∧
          seg.sgl_min_bytes_pushed ≤ seg.sgl_bytes_pushed ∧
          ∀ c : Nat, flist1.fl_pool.map lam_mp_get_chunk_size = some c →
            1 ≤ page_size → 1 ≤ c → 0 ≤ min_pages_per_list →
            min_pages_per_list * page_size < 2 ^ 64 →
            spec_min_pages c page_size min_pages_per_list < 2 ^ 31 →
            spec_min_pages c page_size min_pages_per_list * page_size < 2 ^ 64 →
            min_pages_per_list * page_size ≤ seg.sgl_min_bytes_pushed := by
  rcases construct_with_ok env fuel flist nlists pages_per_list chunk_size page_size elt_size
    min_pages_per_list max_pages_per_list max_consec_req_fail description
    retry_for_more_resources affinity enforce_affinity mem_pool hok with
    ⟨flist1, pool, sz, hres, hpool, _, hsz, _, _, _, hlen, hall⟩
  refine ⟨flist1, hres, hlen, ?_⟩
  intro i h0 h1
  rcases hall i h0 h1 with ⟨seg, hseg, hm, _, _, hb⟩
  refine ⟨seg, hseg, hb, ?_⟩
  intro c hcp hpage hc1 hmin hfit1 hfit2 hfit3
  have hcc : lam_mp_get_chunk_size pool = c := by simpa [hpool] using hcp
  rw [hcc] at hsz
  have hfree := compute_sizing_initial_max_free c page_size elt_size min_pages_per_list
    max_pages_per_list
  rw [hsz] at hfree
  cases hsz1 : compute_sizing c page_size elt_size min_pages_per_list (-1) with
  | none => simp [hsz1] at hfree
  | some sz1 =>
    have hinit1 : sz1.initial_mem_per_list = sz.initial_mem_per_list := by
      simpa [hsz1] using hfree.symm
    rcases compute_sizing_spec c page_size elt_size min_pages_per_list (-1) sz1 hsz1 hpage hc1
      hmin hfit1 hfit2 hfit3 (fun h => absurd rfl h) with ⟨hinit, _⟩
    rcases spec_min_pages_mul_ge c page_size min_pages_per_list hpage with ⟨_, hge⟩
    rw [hm, ← hinit1, hinit]
    exact hge

/-- C9 as amended, at a concrete input: four lists, pages of 4096 bytes, a pool
of 4096-byte chunks and `min_pages_per_list = 2`. -/
theorem prefilled_on_success_witness :
    ∃ flist1,
      (lam_free_lists_construct_with demo_env 4 lam_free_lists_construct 4 1 1000 4096 64 2
        (-1) 3 "demo" false [] false (some demo_pool)).result = some (LAM_SUCCESS, flist1) ∧
      flist1.fl_free_lists.length = (4 : Int).toNat ∧
      ∀ i : Int, 0 ≤ i → i < 4 →
        ∃ seg, seg_at flist1.fl_free_lists i = some seg ∧
          seg.sgl_min_bytes_pushed ≤ seg.sgl_bytes_pushed ∧
          ∀ c : Nat, flist1.fl_pool.map lam_mp_get_chunk_size = some c →
            1 ≤ 4096 → 1 ≤ c → (0 : Int) ≤ 2 →
            (2 : Int) * ((4096 : Nat) : Int) < 2 ^ 64 →
            spec_min_pages c 4096 2 < 2 ^ 31 →
            spec_min_pages c 4096 2 * ((4096 : Nat) : Int) < 2 ^ 64 →
            (2 : Int) * ((4096 : Nat) : Int) ≤ seg.sgl_min_bytes_pushed :=
  prefilled_on_success demo_env 4 lam_free_lists_construct 4 1 1000 4096 64 2 (-1) 3 "demo"
    false [] false (some demo_pool) (by decide)

/-! ### C11, C12: acquisition and return in the shipped build -/

/-- C11, the claim as stated fails: on the list that
`lam_free_lists_construct_with` has just filled with the 64 elements of one
chunk, `lam_free_lists_get_elt` of the shipped build returns no element,
`lam_free_lists_return_elt` answers an element with `LAM_ERROR`, and the
`lam_free_lists_get_elt` after that returns no element either. -/
theorem fresh_list_yields_no_element :
    (lam_free_lists_construct_with demo_env 4 lam_free_lists_construct 1 1 4096 4096 64 1 (-1)
        3 "demo" false [] false (some demo_pool)).result.bind
      (fun r => (seg_at r.2.fl_free_lists 0).map (fun seg => seg.sgl_list.length)) = some 64 ∧
    (lam_free_lists_construct_with demo_env 4 lam_free_lists_construct 1 1 4096 4096 64 1 (-1)
        3 "demo" false [] false (some demo_pool)).result.bind
      (fun r => (lam_free_lists_get_elt false r.2 0 LAM_SUCCESS).map (fun g => g.elt))
      = some 0 ∧
    (lam_free_lists_construct_with demo_env 4 lam_free_lists_construct 1 1 4096 4096 64 1 (-1)
        3 "demo" false [] false (some demo_pool)).result.bind
      (fun r => (lam_free_lists_return_elt false r.2 0 4096).map Prod.fst) = some LAM_ERROR ∧
    (lam_free_lists_construct_with demo_env 4 lam_free_lists_construct 1 1 4096 4096 64 1 (-1)
        3 "demo" false [] false (some demo_pool)).result.bind
      (fun r => (lam_free_lists_return_elt false r.2 0 4096).bind
        (fun q => (lam_free_lists_get_elt false q.2 0 LAM_SUCCESS).map (fun g => g.elt)))
      = some 0 := by
  decide

/-- C11 as amended: in the shipped build (`ROB_HASNT_FINISHED_THIS_YET` 0), for
every set, index and element, `lam_free_lists_get_elt` yields no element, the
element passed to `lam_free_lists_return_elt` on that index is answered with
`LAM_ERROR`, and it does not become acquirable: the `lam_free_lists_get_elt`
that follows yields no element again. -/
theorem shipped_round_trip_rejected (flist : lam_free_lists_t) (index : Int) (item : Nat)
    (error : lam_status) :
    ∃ g r g1,
      lam_free_lists_get_elt false flist index error = some g ∧ g.elt = 0 ∧
      lam_free_lists_return_elt false g.flist index item = some r ∧ r.1 = LAM_ERROR ∧
      lam_free_lists_get_elt false r.2 index error = some g1 ∧ g1.elt = 0 :=
  ⟨{ flist := flist, elt := 0, error := error }, (LAM_ERROR, flist),
    { flist := flist, elt := 0, error := error }, rfl, rfl, rfl, rfl, rfl, rfl⟩

/-- C12: in the shipped build (`ROB_HASNT_FINISHED_THIS_YET` 0), for every set,
index and element, `lam_free_lists_get_elt` returns null and leaves the set and
the caller's `*error` as they were, and `lam_free_lists_return_elt` returns
`LAM_ERROR` and leaves the set as it was. -/
theorem shipped_get_and_return_are_inert (flist : lam_free_lists_t) (index : Int) (item : Nat)
    (error : lam_status) :
    lam_free_lists_get_elt false flist index error
      = some { flist := flist, elt := 0, error := error } ∧
    lam_free_lists_return_elt false flist index item = some (LAM_ERROR, flist) :=
  ⟨rfl, rfl⟩

/-! ### C15: what a cap failure touches -/

/-- C15, the claim as stated fails: a list with the finite cap `2 ^ 63 - 1`
and as many bytes pushed, over a pool of chunks of `2 ^ 63 + 1` bytes, has
`bytes_pushed + s > m`; the unsigned sum wraps to `0`, so the call does ask the
pool (its request count goes from 0 to 1) and returns the pool's chunk. -/
theorem wrapped_sum_reaches_pool :
    (demo_seg (2 ^ 63 - 1) (2 ^ 63 - 1) 3 0).sgl_max_bytes_pushed ≠ -1 ∧
    (demo_seg (2 ^ 63 - 1) (2 ^ 63 - 1) 3 0).sgl_bytes_pushed
        + (lam_mp_get_chunk_size wide_pool : Int)
      > (demo_seg (2 ^ 63 - 1) (2 ^ 63 - 1) 3 0).sgl_max_bytes_pushed ∧
    (lam_free_lists_get_mem_chunk
        (demo_flist wide_pool [demo_seg (2 ^ 63 - 1) (2 ^ 63 - 1) 3 0]) 0 none LAM_SUCCESS).map
      (fun r => (r.chunk, r.flist.fl_pool.map lam_mem_pool_t.mp_requests))
      = some (4096, some 1) ∧
    wide_pool.mp_requests = 0 := by
  decide

/-- C15 as amended: for a valid index whose list has a finite cap that is not
negative, and a non-negative `bytes_pushed` whose sum with the chunk size stays
below `2 ^ 64` and exceeds the cap, `lam_free_lists_get_mem_chunk` leaves the
pool as it was (no request is made), leaves `*len` as it was, and changes
nothing in the set but entry `index` of the list array, where only
`consec_fail` changes (it goes up by one); every other list is as it was. -/
theorem cap_failure_frame (flist : lam_free_lists_t) (pool : lam_mem_pool_t)
    (index : Int) (seg : lam_seg_list_t) (len : Option Nat) (err : lam_status)
    (hpool : flist.fl_pool = some pool)
    (_hlo : 0 ≤ index) (hhi : index < flist.fl_nlists)
    (hseg : seg_at flist.fl_free_lists index = some seg)
    (_hfinite : seg.sgl_max_bytes_pushed ≠ -1)
    (hcap0 : 0 ≤ seg.sgl_max_bytes_pushed)
    (hbytes0 : 0 ≤ seg.sgl_bytes_pushed)
    (hfit : seg.sgl_bytes_pushed + (lam_mp_get_chunk_size pool : Int) < 2 ^ 64)
    (hcap : seg.sgl_bytes_pushed + (lam_mp_get_chunk_size pool : Int)
      > seg.sgl_max_bytes_pushed) :
    ∃ r, lam_free_lists_get_mem_chunk flist index len err = some r ∧
      r.chunk = 0 ∧ r.len = len ∧
      r.flist.fl_pool = flist.fl_pool ∧
      r.flist = { flist with fl_free_lists := r.flist.fl_free_lists } ∧
      r.flist.fl_free_lists = flist.fl_free_lists.set index.toNat
        { seg with sgl_consec_fail := seg.sgl_consec_fail + 1 } ∧
      seg_at r.flist.fl_free_lists index
        = some { seg with sgl_consec_fail := seg.sgl_consec_fail + 1 } ∧
      ∀ j : Int, j ≠ index → seg_at r.flist.fl_free_lists j = seg_at flist.fl_free_lists j := by
  have hc : cap_exceeded seg (lam_mp_get_chunk_size pool) :=
    cap_exceeded_of_fits seg _ hcap0 hbytes0 hfit hcap
  have h0 := seg_at_nonneg _ _ _ hseg
  refine ⟨fail_chunk flist index seg len,
    get_mem_chunk_eq_cap flist pool index seg len err hpool hhi hseg hc,
    fail_chunk_chunk _ _ _ _, fail_chunk_len _ _ _ _, ?_, ?_, ?_, ?_, ?_⟩
  · rw [fail_chunk_flist]
    rfl
  · rw [fail_chunk_flist]
    rfl
  · rw [fail_chunk_flist]
    rfl
  · rw [fail_chunk_flist]
    exact seg_at_set_seg_self flist index seg _ hseg
  · intro j hj
    rw [fail_chunk_flist]
    exact seg_at_set_seg_other flist index j _ h0 hj

/-- C15 as amended, at a concrete input: two lists, the first at its cap of
one chunk. -/
theorem cap_failure_frame_witness :
    ∃ r, lam_free_lists_get_mem_chunk
        (demo_flist demo_pool [demo_seg 4096 4096 3 0, demo_seg (-1) 0 3 0]) 0 none LAM_SUCCESS
        = some r ∧
      r.chunk = 0 ∧ r.len = none ∧
      r.flist.fl_pool = (demo_flist demo_pool [demo_seg 4096 4096 3 0, demo_seg (-1) 0 3 0]).fl_pool ∧
      r.flist = { demo_flist demo_pool [demo_seg 4096 4096 3 0, demo_seg (-1) 0 3 0] with
        fl_free_lists := r.flist.fl_free_lists } ∧
      r.flist.fl_free_lists =
        (demo_flist demo_pool [demo_seg 4096 4096 3 0, demo_seg (-1) 0 3 0]).fl_free_lists.set
          (0 : Int).toNat
          { demo_seg 4096 4096 3 0 with
            sgl_consec_fail := (demo_seg 4096 4096 3 0).sgl_consec_fail + 1 } ∧
      seg_at r.flist.fl_free_lists 0
        = some { demo_seg 4096 4096 3 0 with
            sgl_consec_fail := (demo_seg 4096 4096 3 0).sgl_consec_fail + 1 } ∧
      ∀ j : Int, j ≠ 0 → seg_at r.flist.fl_free_lists j
        = seg_at (demo_flist demo_pool [demo_seg 4096 4096 3 0, demo_seg (-1) 0 3 0]).fl_free_lists
            j :=
  cap_failure_frame (demo_flist demo_pool [demo_seg 4096 4096 3 0, demo_seg (-1) 0 3 0])
    demo_pool 0 (demo_seg 4096 4096 3 0) none LAM_SUCCESS rfl (by decide) (by decide) rfl
    (by decide) (by decide) (by decide) (by decide) (by decide)

/-! ### C13: the size of the private pool -/

/-- C13, the code at the failing input: without an external pool, with
`nlists = 4`, `page_size = 4096` and `pages_per_list = -1`,
`lam_free_lists_construct_with` hands `pages_per_list` itself on as the default
page count, so the private pool is constructed with the initial size
`-1 * 4 * 4096 = -16384` (and with the maximum `8 * 4096` and the chunk size
4096). -/
theorem private_pool_sized_from_sentinel (env : externals) (flist : lam_free_lists_t) :
    setup_pool env flist 4 (-1) 4096 4096 1 8 none =
      some ((env.lam_mp_construct_with (-16384) 32768 4096 4096).1,
        { flist with fl_pool := some (env.lam_mp_construct_with (-16384) 32768 4096 4096).2 }) := by
  have h1 : to_long (size_mul (to_size_t (to_long (-1 * 4))) 4096) = -16384 := by decide
  have h2 : to_long (size_mul (to_size_t 8) 4096) = 32768 := by decide
  have h3 : to_long (size_mul (size_add (to_size_t (to_long (4096 - 1)) / 4096) 1) 4096)
      = 4096 := by decide
  have h4 : to_long ((4096 : Nat) : Int) = 4096 := by decide
  simp only [setup_pool, lam_free_lists_mem_pool_construct, if_true]
  rw [h4, h1, h2, h3]
  simp

/-! ### C14: a binding that fails in a release build -/

/-- C14, the code at the failing input: in a release build with affinity
enforced and a binding that fails, `lam_free_lists_create_more_elts` constructs
the 64 elements and appends the chunk (4096 bytes pushed) and then returns
`LAM_ERROR`; the pre-fill loop takes that for a failed growth, and
`lam_free_lists_construct_with` aborts. -/
theorem release_binding_failure_aborts_prefill :
    (lam_free_lists_create_more_elts unbound_env
        (affine_flist demo_pool [demo_seg_min 4096 (-1) 0 3 0]) 0).map
      (fun r => (r.1, r.2.fl_constructed.length,
        (seg_at r.2.fl_free_lists 0).map (fun seg => (seg.sgl_bytes_pushed, seg.sgl_list.length))))
      = some (LAM_ERROR, 64, some (4096, 64)) ∧
    (prefill_list unbound_env 0 4 (affine_flist demo_pool [demo_seg_min 4096 (-1) 0 3 0])).is_aborted
      = true ∧
    (lam_free_lists_construct_with unbound_env 4 lam_free_lists_construct 1 1 4096 4096 64 1 (-1)
        3 "demo" false [5] true (some demo_pool)).is_aborted = true := by
  decide

/-! ### C17: the pre-fill against the cap -/

/-- C17, the code at the failing input: with pages of 4096 bytes, a pool of
8192-byte chunks that never runs dry, no affinity, `min_pages_per_list = 3` and
`max_pages_per_list = 3`, every list gets the minimum 12288 and the cap 12288;
the first growth pushes 8192 bytes, the second would push 16384 and fails on
the cap with `LAM_ERR_TEMP_OUT_OF_RESOURCE`, and
`lam_free_lists_construct_with` aborts. -/
theorem prefill_hits_cap :
    (compute_sizing 8192 4096 64 3 3).map
      (fun sz => (sz.initial_mem_per_list, sz.max_mem_per_list)) = some (12288, 12288) ∧
    (lam_free_lists_create_more_elts demo_env
        (demo_flist two_page_pool [demo_seg_min 12288 12288 0 3 0]) 0).map
      (fun r => (r.1, (seg_at r.2.fl_free_lists 0).map (fun seg => seg.sgl_bytes_pushed)))
      = some (LAM_SUCCESS, some 8192) ∧
    (lam_free_lists_create_more_elts demo_env
        (demo_flist two_page_pool [demo_seg_min 12288 12288 0 3 0]) 0).bind
      (fun r => (lam_free_lists_create_more_elts demo_env r.2 0).map Prod.fst)
      = some LAM_ERR_TEMP_OUT_OF_RESOURCE ∧
    (lam_free_lists_construct_with demo_env 4 lam_free_lists_construct 1 1 8192 4096 64 3 3 3
        "demo" false [] false (some two_page_pool)).is_aborted = true := by
  decide

/-! ### C16: the chunk size asked of the private pool -/

theorem spec_ceil_div_least (c p q : Nat) (hp : 1 ≤ p) (h : c ≤ q * p) :
    spec_ceil_div c p ≤ q := by
  unfold spec_ceil_div
  have hd := Nat.div_add_mod c p
  have hm := Nat.mod_lt c hp
  have hle : c / p ≤ q := by
    apply Nat.div_le_of_le_mul
    rw [Nat.mul_comm]
    exact h
  by_cases h0 : c % p = 0
  · simp only [h0, if_true]
    exact hle
  · simp only [h0, if_false]
    by_contra hlt
    have hq : q = c / p := by omega
    subst hq
    rw [Nat.mul_comm] at h
    omega

/-- The chunk-size statement of `lam_free_lists_mem_pool_construct`, for a
caller's `chunk_size` and a page size whose rounded product fits an `ssize_t`. -/
theorem pool_chunk_size_code_eq (c p : Nat) (hc : 1 ≤ c) (hp : 1 ≤ p)
    (hfit : spec_ceil_div c p * p < 2 ^ 63) :
    to_long (size_mul (size_add (to_size_t (to_long (to_long (c : Int) - 1)) / p) 1) p)
      = ((spec_ceil_div c p * p : Nat) : Int) := by
  have hcK : c ≤ spec_ceil_div c p * p := spec_ceil_div_mul_ge c p hp
  have hceil : spec_ceil_div c p ≤ spec_ceil_div c p * p := Nat.le_mul_of_pos_right _ hp
  have h1 : to_long (c : Int) = c := to_long_of_fits _ (by omega) (by omega)
  have hcast : ((c : Int) - 1) = ((c - 1 : Nat) : Int) := by omega
  have h2 : to_long ((c - 1 : Nat) : Int) = ((c - 1 : Nat) : Int) :=
    to_long_of_fits _ (by omega) (by omega)
  have h3 : to_size_t ((c - 1 : Nat) : Int) = c - 1 := to_size_t_natCast _ (by omega)
  have h4 : size_add ((c - 1) / p) 1 = spec_ceil_div c p := by
    rw [size_add_of_fits _ _ (by rw [code_ceil_eq_spec_ceil c p hc hp]; omega)]
    exact code_ceil_eq_spec_ceil c p hc hp
  have h5 : size_mul (spec_ceil_div c p) p = spec_ceil_div c p * p :=
    size_mul_of_fits _ _ (by omega)
  rw [h1, hcast, h2, h3, h4, h5]
  exact to_long_of_fits _ (by omega) (by exact_mod_cast hfit)

/-- C16, the claim as stated fails: with a caller `chunk_size` of `2 ^ 63 + 2` and
`page_size = 2 ^ 63 + 1` the rounded product `2 * (2 ^ 63 + 1)` wraps around, and
the private pool is constructed with the chunk size 2, which is below
`chunk_size` and not a multiple of `page_size`. -/
theorem pool_chunk_size_wraps_around :
    (setup_pool demo_env lam_free_lists_construct 1 1 (2 ^ 63 + 2) (2 ^ 63 + 1) 1 (-1) none).bind
      (fun r => r.2.fl_pool.map (fun pool => pool.mp_chunk_sz)) = some 2 ∧
    to_long (size_mul (size_add (to_size_t (to_long (to_long ((2 ^ 63 + 2 : Nat) : Int) - 1))
      / (2 ^ 63 + 1)) 1) (2 ^ 63 + 1)) = 2 ∧
    spec_ceil_div (2 ^ 63 + 2) (2 ^ 63 + 1) * (2 ^ 63 + 1) = 2 ^ 64 + 2 := by
  decide

/-- C16 as amended: for a caller `chunk_size >= 1` and `page_size >= 1` whose
rounded product `ceil(chunk_size / page_size) * page_size` fits an `ssize_t`
(is below `2 ^ 63`), the chunk size `lam_free_lists_mem_pool_construct` passes
to the pool's constructor is that product; it is the least multiple of
`page_size` that is `>= chunk_size`, and it equals `chunk_size` exactly when
`chunk_size` is a multiple of `page_size`. -/
theorem pool_chunk_size_rounded_to_pages (env : externals) (flist : lam_free_lists_t)
    (nlists pages_per_list : Int) (chunk_size page_size : Nat)
    (min_pages_per_list max_pages_per_list : Int)
    (hc : 1 ≤ chunk_size) (hp : 1 ≤ page_size)
    (hfit : spec_ceil_div chunk_size page_size * page_size < 2 ^ 63) :
    (∃ mem_in_pool max_mem_in_pool,
      setup_pool env flist nlists pages_per_list chunk_size page_size min_pages_per_list
          max_pages_per_list none =
        some ((env.lam_mp_construct_with mem_in_pool max_mem_in_pool
                ((spec_ceil_div chunk_size page_size * page_size : Nat) : Int) page_size).1,
          { flist with
            fl_pool := some (env.lam_mp_construct_with mem_in_pool max_mem_in_pool
                ((spec_ceil_div chunk_size page_size * page_size : Nat) : Int) page_size).2 })) ∧
    page_size ∣ spec_ceil_div chunk_size page_size * page_size ∧
    chunk_size ≤ spec_ceil_div chunk_size page_size * page_size ∧
    (∀ k : Nat, page_size ∣ k → chunk_size ≤ k →
      spec_ceil_div chunk_size page_size * page_size ≤ k) ∧
    (spec_ceil_div chunk_size page_size * page_size = chunk_size ↔ page_size ∣ chunk_size) := by
  have hpz : page_size ≠ 0 := by omega
  refine ⟨?_, Dvd.intro_left _ rfl, spec_ceil_div_mul_ge chunk_size page_size hp, ?_, ?_⟩
  · refine ⟨to_long (size_mul (to_size_t
        (if pages_per_list = -1 then to_long (pages_per_list * nlists)
         else to_long (pages_per_list * nlists))) page_size),
      to_long (size_mul (to_size_t max_pages_per_list) page_size), ?_⟩
    simp only [setup_pool, lam_free_lists_mem_pool_construct, hpz, if_false]
    rw [pool_chunk_size_code_eq chunk_size page_size hc hp hfit]
  · intro k hk hck
    rcases hk with ⟨q, rfl⟩
    rw [Nat.mul_comm page_size q] at hck ⊢
    exact Nat.mul_le_mul_right _ (spec_ceil_div_least chunk_size page_size q hp hck)
  · constructor
    · intro h
      exact ⟨spec_ceil_div chunk_size page_size, by rw [Nat.mul_comm]; exact h.symm⟩
    · intro h
      unfold spec_ceil_div
      rw [if_pos (Nat.mod_eq_zero_of_dvd h)]
      exact Nat.div_mul_cancel h

/-- C16 as amended, at a concrete input: a caller `chunk_size` of 5000 and pages
of 4096 bytes. -/
theorem pool_chunk_size_rounded_to_pages_witness :
    (∃ mem_in_pool max_mem_in_pool,
      setup_pool demo_env lam_free_lists_construct 4 1 5000 4096 1 8 none =
        some ((demo_env.lam_mp_construct_with mem_in_pool max_mem_in_pool
                ((spec_ceil_div 5000 4096 * 4096 : Nat) : Int) 4096).1,
          { lam_free_lists_construct with
            fl_pool := some (demo_env.lam_mp_construct_with mem_in_pool max_mem_in_pool
                ((spec_ceil_div 5000 4096 * 4096 : Nat) : Int) 4096).2 })) ∧
    4096 ∣ spec_ceil_div 5000 4096 * 4096 ∧
    5000 ≤ spec_ceil_div 5000 4096 * 4096 ∧
    (∀ k : Nat, 4096 ∣ k → 5000 ≤ k → spec_ceil_div 5000 4096 * 4096 ≤ k) ∧
    (spec_ceil_div 5000 4096 * 4096 = 5000 ↔ 4096 ∣ 5000) :=
  pool_chunk_size_rounded_to_pages demo_env lam_free_lists_construct 4 1 5000 4096 1 8
    (by decide) (by decide) (by decide)

/-! ### C18: the pre-fill of a list without cap -/

theorem lt_spec_ceil_div_iff (m c k : Nat) (hc : 1 ≤ c) :
    k * c < m ↔ k < spec_ceil_div m c := by
  constructor
  · intro h
    by_contra hge
    have h1 : spec_ceil_div m c * c ≤ k * c := Nat.mul_le_mul_right _ (by omega)
    have h2 := spec_ceil_div_mul_ge m c hc
    omega
  · intro h
    by_contra hge
    have h1 := spec_ceil_div_least m c k hc (by omega)
    omega

theorem bind_affinity_holds (env : externals) (flist : lam_free_lists_t) (ptr len : Nat)
    (index : Int)
    (hbind : flist.fl_enforce_affinity = false ∨
      ∃ a, affinity_at flist.fl_affinity index = some a ∧
        ∀ p l, env.lam_set_affinity p l a = true) :
    bind_affinity env flist ptr (some len) index = some false := by
  unfold bind_affinity
  rcases hbind with h | ⟨a, ha, hall⟩
  · simp [h]
  · by_cases he : flist.fl_enforce_affinity = true
    · simp [he, ha, hall]
    · simp [he]

/-- The pre-fill loop of an uncapped list over a pool that never runs dry,
from `k` chunks pushed on: it ends with `ceil(m / c)` chunks pushed, having made
one request to the pool for each chunk still missing. -/
theorem prefill_unbounded_core (env : externals) (index : Int) (c m : Nat) (hc : 1 ≤ c)
    (supply : Nat → Int → Nat) (hsupply : ∀ n i, supply n i ≠ 0) :
    ∀ (fuel : Nat) (flist : lam_free_lists_t) (pool : lam_mem_pool_t) (seg : lam_seg_list_t)
      (k : Nat),
      flist.fl_pool = some pool → pool.mp_supply = supply →
      lam_mp_get_chunk_size pool = c →
      index < flist.fl_nlists →
      seg_at flist.fl_free_lists index = some seg →
      seg.sgl_max_bytes_pushed = -1 →
      seg.sgl_min_bytes_pushed = m →
      seg.sgl_bytes_pushed = ((k * c : Nat) : Int) →
      seg.sgl_consec_fail = 0 →
      (flist.fl_enforce_affinity = false ∨
        ∃ a, affinity_at flist.fl_affinity index = some a ∧
          ∀ p l, env.lam_set_affinity p l a = true) →
      k ≤ spec_ceil_div m c → spec_ceil_div m c - k ≤ fuel →
      ∃ flist1 pool1 seg1, prefill_list env index fuel flist = Outcome.ok flist1 ∧
        flist1.fl_pool = some pool1 ∧
        pool1.mp_requests = pool.mp_requests + (spec_ceil_div m c - k) ∧
        seg_at flist1.fl_free_lists index = some seg1 ∧
        seg1.sgl_bytes_pushed = ((spec_ceil_div m c * c : Nat) : Int) ∧
        seg1.sgl_consec_fail = 0 := by
  intro fuel
  induction fuel with
  | zero =>
    intro flist pool seg k hpool _ _ _ hseg _ hmin hbytes hfail _ hk hfuel
    have hkN : k = spec_ceil_div m c := by omega
    have hnlt : ¬ (k * c < m) := by
      rw [lt_spec_ceil_div_iff m c k hc]
      omega
    have hnlt1 : ¬ (seg.sgl_bytes_pushed < seg.sgl_min_bytes_pushed) := by
      rw [hbytes, hmin]
      exact_mod_cast hnlt
    refine ⟨flist, pool, seg, ?_, hpool, by omega, hseg, by rw [hbytes, hkN], hfail⟩
    simp only [prefill_list, hseg, lam_sgl_get_bytes_pushed, lam_sgl_get_min_bytes_pushed]
    rw [if_neg hnlt1]
  | succ fuel ih =>
    intro flist pool seg k hpool hsup hcs hhi hseg hmax hmin hbytes hfail hbind hk hfuel
    by_cases hlt : k * c < m
    · have hkN : k < spec_ceil_div m c := (lt_spec_ceil_div_iff m c k hc).mp hlt
      have hlt1 : seg.sgl_bytes_pushed < seg.sgl_min_bytes_pushed := by
        rw [hbytes, hmin]
        exact_mod_cast hlt
      have hncap : ¬ cap_exceeded seg (lam_mp_get_chunk_size pool) :=
        not_cap_exceeded_of_unbounded seg _ hmax
      have hchunk : (lam_mp_request_chunk pool index).1 ≠ 0 := by
        simp only [lam_mp_request_chunk]
        rw [hsup]
        exact hsupply _ _
      have hb := bind_affinity_holds env flist (lam_mp_request_chunk pool index).1
        (lam_mp_get_chunk_size pool) index hbind
      rcases create_more_elts_eq_grow env flist pool index seg false hpool hhi hseg hncap
        hchunk hb (by simp) with ⟨flist2, heq, hseg2, _, hpool2, _, hcfg⟩
      rcases hcfg with ⟨c1, c2, c3, _, _, _, _, _⟩
      have hbind2 : flist2.fl_enforce_affinity = false ∨
          ∃ a, affinity_at flist2.fl_affinity index = some a ∧
            ∀ p l, env.lam_set_affinity p l a = true := by
        rw [c2, c3]
        exact hbind
      have hbytes2 : (lam_sgl_append_elt_chunk (lam_sgl_set_consec_fail seg 0)
          (lam_mp_request_chunk pool index).1 (lam_mp_get_chunk_size pool)
          flist.fl_elt_per_chunk flist.fl_elt_size).sgl_bytes_pushed
          = (((k + 1) * c : Nat) : Int) := by
        simp only [lam_sgl_append_elt_chunk, lam_sgl_set_consec_fail]
        rw [hbytes, hcs]
        push_cast
        ring
      rcases ih flist2 (lam_mp_request_chunk pool index).2 _ (k + 1) hpool2 hsup hcs
        (by rw [c1]; exact hhi) hseg2 hmax hmin hbytes2 rfl hbind2 (by omega) (by omega) with
        ⟨flist3, pool3, seg3, hpre, hp3, hreq3, hs3, hb3, hf3⟩
      refine ⟨flist3, pool3, seg3, ?_, hp3, ?_, hs3, hb3, hf3⟩
      · simp only [prefill_list, hseg, lam_sgl_get_bytes_pushed, lam_sgl_get_min_bytes_pushed]
        rw [if_pos hlt1]
        simp only [heq, if_false, ne_eq, not_true_eq_false]
        exact hpre
      · rw [hreq3]
        simp only [lam_mp_request_chunk]
        omega
    · have hkN : k = spec_ceil_div m c := by
        have := (lt_spec_ceil_div_iff m c k hc).not.mp hlt
        omega
      have hnlt1 : ¬ (seg.sgl_bytes_pushed < seg.sgl_min_bytes_pushed) := by
        rw [hbytes, hmin]
        exact_mod_cast hlt
      refine ⟨flist, pool, seg, ?_, hpool, by omega, hseg, by rw [hbytes, hkN], hfail⟩
      simp only [prefill_list, hseg, lam_sgl_get_bytes_pushed, lam_sgl_get_min_bytes_pushed]
      rw [if_neg hnlt1]

/-- C18, the claim as stated fails: an uncapped list over a pool of 4096-byte
chunks that has a chunk for every request, in a set that enforces affinity
with a binding that fails (a build with `_DEBUGQUEUES`, where that is fatal):
the pre-fill loop aborts at its first growth instead of ending after
`ceil(4096 / 4096) = 1` growths. -/
theorem prefill_aborts_on_failed_binding :
    (prefill_list unbound_debug_env 0 4
        (affine_flist demo_pool [demo_seg_min 4096 (-1) 0 3 0])).is_aborted = true ∧
    (seg_at (affine_flist demo_pool [demo_seg_min 4096 (-1) 0 3 0]).fl_free_lists 0).map
      (fun seg => seg.sgl_max_bytes_pushed) = some (-1) ∧
    lam_mp_get_chunk_size demo_pool = 4096 ∧
    ∀ n i, demo_pool.mp_supply n i ≠ 0 :=
  ⟨by decide, by decide, by decide, fun n i => by simp [demo_pool]⟩

/-- C18 as amended: for a list with an unbounded cap (`-1`) that starts the
pre-fill with nothing pushed and no failure counted, a pool chunk size
`c >= 1`, a pool that supplies a chunk on every request, and affinity either
not enforced or bound without failure, the pre-fill loop for that list ends
(any budget of at least `ceil(min_bytes_pushed / c)` growths is enough) after
exactly `ceil(min_bytes_pushed / c)` requests to the pool, each a successful
growth, leaving `bytes_pushed = ceil(min_bytes_pushed / c) * c` and
`consec_fail = 0`. -/
theorem prefill_unbounded_growths (env : externals) (flist : lam_free_lists_t)
    (pool : lam_mem_pool_t) (index : Int) (seg : lam_seg_list_t) (fuel : Nat)
    (hpool : flist.fl_pool = some pool)
    (_hlo : 0 ≤ index) (hhi : index < flist.fl_nlists)
    (hseg : seg_at flist.fl_free_lists index = some seg)
    (hunbounded : seg.sgl_max_bytes_pushed = -1)
    (hc : 1 ≤ lam_mp_get_chunk_size pool)
    (hsupply : ∀ n i, pool.mp_supply n i ≠ 0)
    (hbytes : seg.sgl_bytes_pushed = 0) (hfail : seg.sgl_consec_fail = 0)
    (hmin : 0 ≤ seg.sgl_min_bytes_pushed)
    (hbind : flist.fl_enforce_affinity = false ∨
      ∃ a, affinity_at flist.fl_affinity index = some a ∧
        ∀ p l, env.lam_set_affinity p l a = true)
    (hfuel : spec_ceil_div seg.sgl_min_bytes_pushed.toNat (lam_mp_get_chunk_size pool) ≤ fuel) :
    ∃ flist1 pool1 seg1, prefill_list env index fuel flist = Outcome.ok flist1 ∧
      flist1.fl_pool = some pool1 ∧
      pool1.mp_requests = pool.mp_requests +
        spec_ceil_div seg.sgl_min_bytes_pushed.toNat (lam_mp_get_chunk_size pool) ∧
      seg_at flist1.fl_free_lists index = some seg1 ∧
      seg1.sgl_bytes_pushed =
        ((spec_ceil_div seg.sgl_min_bytes_pushed.toNat (lam_mp_get_chunk_size pool)
            * lam_mp_get_chunk_size pool : Nat) : Int) ∧
      seg1.sgl_consec_fail = 0 := by
  have hm : seg.sgl_min_bytes_pushed = ((seg.sgl_min_bytes_pushed.toNat : Nat) : Int) := by
    omega
  have hb0 : seg.sgl_bytes_pushed = ((0 * lam_mp_get_chunk_size pool : Nat) : Int) := by
    rw [hbytes]
    simp
  rcases prefill_unbounded_core env index (lam_mp_get_chunk_size pool)
      seg.sgl_min_bytes_pushed.toNat hc pool.mp_supply hsupply fuel flist pool seg 0 hpool rfl
      rfl hhi hseg hunbounded hm hb0 hfail hbind (by omega) (by omega) with
    ⟨flist1, pool1, seg1, hpre, hp1, hreq, hs1, hb1, hf1⟩
  exact ⟨flist1, pool1, seg1, hpre, hp1, by rw [hreq]; omega, hs1, hb1, hf1⟩

/-- C18 as amended, at a concrete input: a minimum of 10000 bytes over a pool
of 4096-byte chunks, which takes three growths. -/
theorem prefill_unbounded_growths_witness :
    ∃ flist1 pool1 seg1,
      prefill_list demo_env 0 5 (demo_flist demo_pool [demo_seg_min 10000 (-1) 0 3 0])
        = Outcome.ok flist1 ∧
      flist1.fl_pool = some pool1 ∧
      pool1.mp_requests = demo_pool.mp_requests +
        spec_ceil_div (demo_seg_min 10000 (-1) 0 3 0).sgl_min_bytes_pushed.toNat
          (lam_mp_get_chunk_size demo_pool) ∧
      seg_at flist1.fl_free_lists 0 = some seg1 ∧
      seg1.sgl_bytes_pushed =
        ((spec_ceil_div (demo_seg_min 10000 (-1) 0 3 0).sgl_min_bytes_pushed.toNat
            (lam_mp_get_chunk_size demo_pool) * lam_mp_get_chunk_size demo_pool : Nat) : Int) ∧
      seg1.sgl_consec_fail = 0 :=
  prefill_unbounded_growths demo_env (demo_flist demo_pool [demo_seg_min 10000 (-1) 0 3 0])
    demo_pool 0 (demo_seg_min 10000 (-1) 0 3 0) 5 rfl (by decide) (by decide) rfl rfl
    (by decide) (fun n i => by simp [demo_pool]) rfl rfl (by decide) (Or.inl rfl) (by decide)

end FreeLists
